import Mathlib

/-!
# X3F tools: the header constants of `x3f_io.h` and the driver `x3f_extract.c`

The development embeds

* the integer constants of `src/x3f_io.h` (version encoding, section
  identifiers, image type/format dispatch constants), as natural numbers
  reduced modulo `2^32` (the C type is `uint32_t`);
* the function `main` of `src/x3f_extract.c`, as a pure function from the
  argument vector and an environment (the C library and the `x3f_*` library
  functions, which are declared `extern` in the header) to the sequence of
  observable events and the way the process ends.

Pointers are embedded by what `main` tests of them: null or not.  Arguments
and file names are strings of any length.  The buffers
`char outfilename[1024]`, into which `main` copies the input name and appends
the suffixes, have their capacity: a `strcpy` or `strcat` that writes past it
is undefined behaviour, as is `fclose` on a null stream.  The trace of a run
that meets undefined behaviour is cut at that step and the run ends as
`Outcome.undefined`; nothing is stated about what follows.  The `extern`
functions are taken to return on every argument (`x3f_delete` also on a null
`x3f`).
-/

namespace X3F

/-! ## `x3f_io.h`: constants -/

/-- The C type `uint32_t`: the cast `(uint32_t)(e)` reduces modulo `2^32`. -/
def uint32_t (n : Nat) : Nat := n % 2 ^ 32

/-- `#define X3F_VERSION(MAJ,MIN) (uint32_t)(((MAJ)<<16) + MIN)`, operands read
as unsigned 32-bit values. -/
def X3F_VERSION (MAJ MIN : Nat) : Nat := uint32_t ((uint32_t (MAJ <<< 16)) + MIN)

/-- `#define X3F_VERSION_2_0 X3F_VERSION(2,0)` -/
def X3F_VERSION_2_0 : Nat := X3F_VERSION 2 0

/-- `#define X3F_VERSION_2_1 X3F_VERSION(2,1)` -/
def X3F_VERSION_2_1 : Nat := X3F_VERSION 2 1

/-- Main file identifier. -/
def X3F_FOVb : Nat := uint32_t 0x62564f46
/-- Directory identifier. -/
def X3F_SECd : Nat := uint32_t 0x64434553
/-- Property section identifier. -/
def X3F_PROP : Nat := uint32_t 0x504f5250
/-- Property section identifier. -/
def X3F_SECp : Nat := uint32_t 0x70434553
/-- Image section identifier. -/
def X3F_IMAG : Nat := uint32_t 0x46414d49
/-- Image section identifier. -/
def X3F_IMA2 : Nat := uint32_t 0x32414d49
/-- Image section identifier. -/
def X3F_SECi : Nat := uint32_t 0x69434553
/-- CAMF identifier. -/
def X3F_CAMF : Nat := uint32_t 0x464d4143
/-- CAMF identifier. -/
def X3F_SECc : Nat := uint32_t 0x63434553
/-- CAMF entry identifier. -/
def X3F_CMbP : Nat := uint32_t 0x50624d43
/-- CAMF entry identifier. -/
def X3F_CMbT : Nat := uint32_t 0x54624d43
/-- CAMF entry identifier. -/
def X3F_CMbM : Nat := uint32_t 0x4d624d43
/-- CAMF entry identifier. -/
def X3F_CMb : Nat := uint32_t 0x00624d43

/-- `#define X3F_IMAGE_RAW_TRUE_SD1 (uint32_t)(0x0001001e)` -/
def X3F_IMAGE_RAW_TRUE_SD1 : Nat := uint32_t 0x0001001e
/-- `#define X3F_IMAGE_RAW_HUFFMAN_X530 (uint32_t)(0x00030005)` -/
def X3F_IMAGE_RAW_HUFFMAN_X530 : Nat := uint32_t 0x00030005
/-- `#define X3F_IMAGE_RAW_TRUE (uint32_t)(0x0003001e)` -/
def X3F_IMAGE_RAW_TRUE : Nat := uint32_t 0x0003001e
/-- `#define X3F_IMAGE_RAW_HUFFMAN_10BIT (uint32_t)(0x00030006)` -/
def X3F_IMAGE_RAW_HUFFMAN_10BIT : Nat := uint32_t 0x00030006
/-- `#define X3F_IMAGE_THUMB_PLAIN (uint32_t)(0x00020003)` -/
def X3F_IMAGE_THUMB_PLAIN : Nat := uint32_t 0x00020003
/-- `#define X3F_IMAGE_THUMB_HUFFMAN (uint32_t)(0x0002000b)` -/
def X3F_IMAGE_THUMB_HUFFMAN : Nat := uint32_t 0x0002000b
/-- `#define X3F_IMAGE_THUMB_JPEG (uint32_t)(0x00020012)` -/
def X3F_IMAGE_THUMB_JPEG : Nat := uint32_t 0x00020012

/-- The image type/format dispatch constants of the header, in the order of
their definition (lines 50-60).  `X3F_IMAGE_HEADER_SIZE` is a byte count, not
a dispatch constant, and is not listed. -/
def X3F_IMAGE_constants : List Nat :=
  [X3F_IMAGE_RAW_TRUE_SD1, X3F_IMAGE_RAW_HUFFMAN_X530, X3F_IMAGE_RAW_TRUE,
   X3F_IMAGE_RAW_HUFFMAN_10BIT, X3F_IMAGE_THUMB_PLAIN, X3F_IMAGE_THUMB_HUFFMAN,
   X3F_IMAGE_THUMB_JPEG]

/-- The field `type_format` of `x3f_image_data_t`, documented in the header as
`type<<16 + format` (a `uint32_t` computed from two `uint32_t` fields). -/
def type_format (type format : Nat) : Nat :=
  uint32_t (uint32_t (type <<< 16) + format)

/-- The same key written with a bitwise or, `type<<16 | format`. -/
def type_format_or (type format : Nat) : Nat :=
  uint32_t (uint32_t (type <<< 16) ||| format)

/-- The six (type, format) combinations that the specification calls defined:
1-6, 2-3, 2-11, 2-18, 3-6 and 3-0x1e. -/
def definedCombinations : List (Nat × Nat) :=
  [(1, 6), (2, 3), (2, 11), (2, 18), (3, 6), (3, 0x1e)]

/-- The seven (type, format) combinations for which the header has a
dispatch constant. -/
def headerCombinations : List (Nat × Nat) :=
  [(1, 0x1e), (3, 5), (3, 0x1e), (3, 6), (2, 3), (2, 11), (2, 18)]

/-- Little-endian reading of a byte sequence as an unsigned integer: the first
byte is the least significant one (the header: "We assume that the X3F file is
little endian"). -/
def littleEndian : List Nat → Nat
  | [] => 0
  | b :: bs => b % 256 + 256 * littleEndian bs

/-- The 32-bit little-endian reading of a four-character ASCII tag. -/
def tag32 (tag : String) : Nat :=
  uint32_t (littleEndian (tag.data.map Char.toNat))

/-- The 32-bit little-endian reading of a three-character tag followed by a
zero byte. -/
def tag32z (tag : String) : Nat :=
  uint32_t (littleEndian (tag.data.map Char.toNat ++ [0]))

end X3F

namespace X3F

/-! ## `x3f_extract.c`: data -/

/-- `typedef enum {RAW, TIFF, PPMP3, PPMP6, HISTOGRAM} raw_file_type_t;` -/
inductive raw_file_type_t where
  | RAW
  | TIFF
  | PPMP3
  | PPMP6
  | HISTOGRAM
  deriving DecidableEq, Repr

/-- `typedef enum x3f_return_e {...} x3f_return_t;` of `x3f_io.h`. -/
inductive x3f_return_t where
  | X3F_OK
  | X3F_ARGUMENT_ERROR
  | X3F_INFILE_ERROR
  | X3F_OUTFILE_ERROR
  | X3F_INTERNAL_ERROR
  deriving DecidableEq, Repr

/-- A C `double`, represented by its IEEE-754 binary64 bit pattern.  The
driver never computes with `gamma`; it only compares it with `0.0` and hands
it on to the dump functions. -/
structure Double where
  bits : Nat
  deriving DecidableEq, Repr

namespace Double

/-- Sign bit (bit 63). -/
def sign (d : Double) : Nat := (d.bits / 2 ^ 63) % 2

/-- Not-a-number: exponent field all ones, mantissa non-zero. -/
def isNaN (d : Double) : Bool :=
  (d.bits / 2 ^ 52) % 2048 == 2047 && d.bits % 2 ^ 52 != 0

/-- Plus or minus zero: all bits below the sign bit are zero. -/
def isZero (d : Double) : Bool := d.bits % 2 ^ 63 == 0

/-- The C comparison `d <= 0.0` (false on a NaN). -/
def le_zero (d : Double) : Bool := !d.isNaN && (d.isZero || d.sign == 1)

/-- The C comparison `d > 0.0` (false on a NaN). -/
def gt_zero (d : Double) : Bool := !d.isNaN && !d.isZero && d.sign == 0

/-- The constant `-1.0`. -/
def minusOne : Double := ⟨0xBFF0000000000000⟩

end Double

/-- The directory entry handed to a load function, named by the getter that
produced it: `x3f_get_raw(x3f)` or `x3f_get_thumb_jpeg(x3f)`. -/
inductive DirEntry where
  | raw
  | thumb_jpeg
  deriving DecidableEq, Repr

/-- The observable steps of a run of `main`: calls of library functions
(with their arguments and the value they returned) and lines printed. -/
inductive Event where
  /-- `usage(argv[0])`: the usage text on stderr, then `exit(1)` -/
  | usage (progname : Option String)
  /-- `f_in = fopen(infilename, "rb")`; `ok` tells whether `f_in != NULL` -/
  | fopen (infilename : String) (ok : Bool)
  /-- stderr: `Could not open infile %s` -/
  | err_open (infilename : String)
  /-- stdout: `READ THE X3F FILE %s` -/
  | out_read (infilename : String)
  /-- `x3f = x3f_new_from_file(f_in)`; `ok` tells whether `x3f != NULL` -/
  | x3f_new_from_file (infilename : String) (ok : Bool)
  /-- stderr: `Could not read infile %s` -/
  | err_read (infilename : String)
  /-- `x3f_load_data(x3f, DE)` and its return value -/
  | x3f_load_data (DE : DirEntry) (ret : x3f_return_t)
  /-- `x3f_load_image_block(x3f, DE)` and its return value -/
  | x3f_load_image_block (DE : DirEntry) (ret : x3f_return_t)
  /-- stdout: `Dump JPEG to %s` -/
  | out_dump_jpeg (outfilename : String)
  /-- `x3f_dump_jpeg(x3f, outfilename)` and its return value -/
  | x3f_dump_jpeg (outfilename : String) (ret : x3f_return_t)
  /-- stderr: `Could not dump JPEG to %s` -/
  | err_dump_jpeg (outfilename : String)
  /-- stdout: `Load RAW block from %s` -/
  | out_load_raw (infilename : String)
  /-- stderr: `Could not load unconverted RAW from memory` -/
  | err_load_unconverted
  /-- stderr: `Could not load RAW from memory` -/
  | err_load_raw
  /-- stdout: `Dump RAW block to %s` -/
  | out_dump_raw_block (outfilename : String)
  /-- `x3f_dump_raw_data(x3f, outfilename)` and its return value -/
  | x3f_dump_raw_data (outfilename : String) (ret : x3f_return_t)
  /-- stdout: `Dump RAW as TIFF to %s` -/
  | out_dump_tiff (outfilename : String)
  /-- `x3f_dump_raw_data_as_tiff(x3f, outfilename, gamma, min, max)` -/
  | x3f_dump_raw_data_as_tiff (outfilename : String) (gamma : Double)
      (min max : Int) (ret : x3f_return_t)
  /-- stdout: `Dump RAW as PPM to %s` -/
  | out_dump_ppm (outfilename : String)
  /-- `x3f_dump_raw_data_as_ppm(x3f, outfilename, gamma, min, max, binary)` -/
  | x3f_dump_raw_data_as_ppm (outfilename : String) (gamma : Double)
      (min max : Int) (binary : Int) (ret : x3f_return_t)
  /-- stdout: `Dump RAW as CSV histogram to %s` -/
  | out_dump_csv (outfilename : String)
  /-- `x3f_dump_raw_data_as_histogram(x3f, outfilename, log_hist)` -/
  | x3f_dump_raw_data_as_histogram (outfilename : String) (log_hist : Int)
      (ret : x3f_return_t)
  /-- stderr: `Could not dump RAW to %s` -/
  | err_dump_raw (outfilename : String)
  /-- `x3f_delete(x3f)`; `nonnull` tells whether `x3f != NULL` -/
  | x3f_delete (nonnull : Bool)
  /-- `fclose(f_in)`; `nonnull` tells whether `f_in != NULL` -/
  | fclose (nonnull : Bool)
  deriving DecidableEq, Repr

/-- The events of a run so far, oldest first. -/
abbrev Trace := List Event

/-- The functions `main` calls and does not define: `atof`, `atoi` and
`fopen` of the C library, and the functions `x3f_io.h` declares `extern`.
Each function with an effect gets the trace of the run up to its call, so its
answer may depend on everything that happened before (which file is open,
what was loaded, what was written). -/
structure Env where
  atof : String → Double
  atoi : String → Int
  fopen : Trace → String → Bool
  x3f_new_from_file : Trace → String → Bool
  x3f_load_data : Trace → DirEntry → x3f_return_t
  x3f_load_image_block : Trace → DirEntry → x3f_return_t
  x3f_dump_jpeg : Trace → String → x3f_return_t
  x3f_dump_raw_data : Trace → String → x3f_return_t
  x3f_dump_raw_data_as_tiff : Trace → String → Double → Int → Int → x3f_return_t
  x3f_dump_raw_data_as_ppm :
    Trace → String → Double → Int → Int → Int → x3f_return_t
  x3f_dump_raw_data_as_histogram : Trace → String → Int → x3f_return_t

/-- The local variables of `main` that the option loop sets, with their
initial values. -/
structure Options where
  extract_jpg : Int := 0
  extract_raw : Int := 1
  min : Int := -1
  max : Int := -1
  gamma : Double := Double.minusOne
  file_type : raw_file_type_t := raw_file_type_t.TIFF
  log_hist : Int := 0
  deriving DecidableEq, Repr

/-- How the process ends: `exit(status)` or `return status` from `main`, or
undefined behaviour (no status is guaranteed; the run is cut there). -/
inductive Outcome where
  | exit (status : Int)
  | undefined
  deriving DecidableEq, Repr

/-- What the option loop leaves: a call of `usage`, or the option variables
and the arguments `argv[i..argc-1]` at the `break` (or at `i == argc`). -/
inductive OptionLoopResult where
  | usage
  | files (o : Options) (rest : List String)
  deriving DecidableEq, Repr

end X3F

namespace X3F

open raw_file_type_t x3f_return_t

/-! ## `x3f_extract.c`: `main` -/

/-- The test `!strncmp(argv[i], "-", 1)`: the first character is a dash (an
empty argument has none). -/
def startsWithDash (s : String) : Bool :=
  match s.data with
  | c :: _ => c == '-'
  | [] => false

/-- The option loop `for (i=1; i<argc; i++) ...` (lines 49-73), run on the
arguments `argv[i..argc-1]` that are left.  The test `(i+1)<argc` of the three
options with a value is the case distinction on what follows `argv[i]`:
when nothing follows, those three branches are skipped. -/
def optionLoop (env : Env) : Options → List String → OptionLoopResult
  | o, [] => .files o []
  | o, a :: rest =>
    if a = "-jpg" then
      optionLoop env { o with extract_raw := 0, extract_jpg := 1 } rest
    else if a = "-raw" then
      optionLoop env { o with extract_raw := 1, file_type := RAW } rest
    else if a = "-tiff" then
      optionLoop env { o with extract_raw := 1, file_type := TIFF } rest
    else if a = "-ppm-ascii" then
      optionLoop env { o with extract_raw := 1, file_type := PPMP3 } rest
    else if a = "-ppm" then
      optionLoop env { o with extract_raw := 1, file_type := PPMP6 } rest
    else if a = "-histogram" then
      optionLoop env { o with extract_raw := 1, file_type := HISTOGRAM } rest
    else if a = "-loghist" then
      optionLoop env
        { o with extract_raw := 1, file_type := HISTOGRAM, log_hist := 1 } rest
    else
      match rest with
      | v :: rest2 =>
        if a = "-gamma" then optionLoop env { o with gamma := env.atof v } rest2
        else if a = "-min" then optionLoop env { o with min := env.atoi v } rest2
        else if a = "-max" then optionLoop env { o with max := env.atoi v } rest2
        else if startsWithDash a then .usage
        else .files o (a :: v :: rest2)
      | [] =>
        if startsWithDash a then .usage
        else .files o [a]

/-- The C function `strlen`: the number of bytes of a string. -/
def strlen (s : String) : Nat := s.utf8ByteSize

/-- The capacity of the buffers `char outfilename[1024]` (lines 106, 119). -/
def OUTFILENAME_SIZE : Nat := 1024

/-- The call `strcpy(outfilename, src)`: it writes the bytes of `src` and a
terminating zero.  The result is the new content of `outfilename`, or `none`
when the write runs past the end of the buffer (undefined behaviour). -/
def strcpy_outfilename (src : String) : Option String :=
  if strlen src + 1 ≤ OUTFILENAME_SIZE then some src else none

/-- The call `strcat(outfilename, suffix)` on the content `dst`: the result is
the new content, or `none` when the bytes of `dst`, of `suffix` and the
terminating zero do not fit the buffer (undefined behaviour). -/
def strcat_outfilename (dst suffix : String) : Option String :=
  if strlen dst + strlen suffix + 1 ≤ OUTFILENAME_SIZE then some (dst ++ suffix) else none

/-- The label `clean_up`: `x3f_delete(x3f); fclose(f_in);`.  The arguments
tell whether `x3f` and `f_in` are non-null.  The second component tells
whether the iteration ends with defined behaviour: `fclose` on a null stream
is undefined (ISO C 7.1.4; the usual C libraries dereference the pointer). -/
def clean_up (x3f f_in : Bool) : List Event × Bool :=
  ([Event.x3f_delete x3f, Event.fclose f_in], f_in)

/-- The block `if (extract_jpg) {...}` (lines 105-116), entered after the
trace `h`: the events it adds, and whether it ends with defined behaviour
(`false`: `strcpy` or `strcat` overflowed `outfilename`, the run is cut). -/
def extractJpg (env : Env) (h : Trace) (infilename : String) : List Event × Bool :=
  let e1 := Event.x3f_load_data DirEntry.thumb_jpeg
    (env.x3f_load_data h DirEntry.thumb_jpeg)
  match (strcpy_outfilename infilename).bind (fun s => strcat_outfilename s ".jpg") with
  | none => ([e1], false)
  | some outfilename =>
    let e2 := Event.out_dump_jpeg outfilename
    let ret := env.x3f_dump_jpeg (h ++ [e1, e2]) outfilename
    ([e1, e2, Event.x3f_dump_jpeg outfilename ret] ++
      (if X3F_OK ≠ ret then [Event.err_dump_jpeg outfilename] else []), true)

/-- The statements under `case HISTOGRAM:` (lines 155-158), entered after the
trace `h` with the current content of `outfilename`: the events they add, and
the final `outfilename` and `ret_dump` (`none`: `strcat` overflowed). -/
def caseHistogram (env : Env) (o : Options) (h : Trace) (outfilename : String) :
    List Event × Option (String × x3f_return_t) :=
  match strcat_outfilename outfilename ".csv" with
  | none => ([], none)
  | some out =>
    let e1 := Event.out_dump_csv out
    let ret := env.x3f_dump_raw_data_as_histogram (h ++ [e1]) out o.log_hist
    ([e1, Event.x3f_dump_raw_data_as_histogram out o.log_hist ret], some (out, ret))

/-- The statements under `case PPMP3: case PPMP6:` (lines 150-153).  No
`break` follows them, so control continues under `case HISTOGRAM:`, which
appends to `outfilename` and overwrites `ret_dump`. -/
def casePpm (env : Env) (o : Options) (h : Trace) (outfilename : String) :
    List Event × Option (String × x3f_return_t) :=
  match strcat_outfilename outfilename ".ppm" with
  | none => ([], none)
  | some out =>
    let e1 := Event.out_dump_ppm out
    let binary : Int := if o.file_type = PPMP6 then 1 else 0
    let ret := env.x3f_dump_raw_data_as_ppm (h ++ [e1]) out o.gamma o.min o.max binary
    let t := [e1, Event.x3f_dump_raw_data_as_ppm out o.gamma o.min o.max binary ret]
    let r := caseHistogram env o (h ++ t) out
    (t ++ r.1, r.2)

/-- The statement `switch (file_type) {...}` (lines 137-159), entered after
the trace `h` with the content of `outfilename` that `strcpy` left: the events
it adds, and the final `outfilename` and `ret_dump` (`none`: a `strcat`
overflowed). -/
def dumpSwitch (env : Env) (o : Options) (h : Trace) (outfilename : String) :
    List Event × Option (String × x3f_return_t) :=
  match o.file_type with
  | RAW =>
    match strcat_outfilename outfilename ".raw" with
    | none => ([], none)
    | some out =>
      let e1 := Event.out_dump_raw_block out
      let ret := env.x3f_dump_raw_data (h ++ [e1]) out
      ([e1, Event.x3f_dump_raw_data out ret], some (out, ret))
  | TIFF =>
    match strcat_outfilename outfilename ".tif" with
    | none => ([], none)
    | some out =>
      let e1 := Event.out_dump_tiff out
      let ret := env.x3f_dump_raw_data_as_tiff (h ++ [e1]) out o.gamma o.min o.max
      ([e1, Event.x3f_dump_raw_data_as_tiff out o.gamma o.min o.max ret], some (out, ret))
  | PPMP3 => casePpm env o h outfilename
  | PPMP6 => casePpm env o h outfilename
  | HISTOGRAM => caseHistogram env o h outfilename

/-- The statements of the block `if (extract_raw) {...}` from `strcpy` on
(lines 135-162): `strcpy(outfilename, infilename)`, the `switch` and the
report of a failed dump; the second component is `false` when `strcpy` or a
`strcat` overflowed `outfilename`. -/
def dumpRaw (env : Env) (o : Options) (h : Trace) (infilename : String) :
    List Event × Bool :=
  match strcpy_outfilename infilename with
  | none => ([], false)
  | some outfilename =>
    let r := dumpSwitch env o h outfilename
    match r.2 with
    | none => (r.1, false)
    | some (out, ret_dump) =>
      (r.1 ++ (if X3F_OK ≠ ret_dump then [Event.err_dump_raw out] else []), true)

/-- The block `if (extract_raw) {...}` (lines 118-163), entered after the
trace `h`: the events it adds, and whether it ends with defined behaviour.
After a failed load the block is left by `goto clean_up`. -/
def extractRaw (env : Env) (o : Options) (h : Trace) (infilename : String) :
    List Event × Bool :=
  let e1 := Event.out_load_raw infilename
  if o.file_type = RAW then
    let ret := env.x3f_load_image_block (h ++ [e1]) DirEntry.raw
    let t := [e1, Event.x3f_load_image_block DirEntry.raw ret]
    if X3F_OK ≠ ret then (t ++ [Event.err_load_unconverted], true)
    else
      let d := dumpRaw env o (h ++ t) infilename
      (t ++ d.1, d.2)
  else
    let ret := env.x3f_load_data (h ++ [e1]) DirEntry.raw
    let t := [e1, Event.x3f_load_data DirEntry.raw ret]
    if X3F_OK ≠ ret then (t ++ [Event.err_load_raw], true)
    else
      let d := dumpRaw env o (h ++ t) infilename
      (t ++ d.1, d.2)

/-- The body of the file loop (lines 86-169) for `infilename = argv[i]`,
started after the trace `h`: the events of this iteration, and whether the
iteration ends with defined behaviour.  Every path with defined behaviour
ends at `clean_up`; an iteration in which `outfilename` overflows is cut at
the overflow. -/
def processFile (env : Env) (o : Options) (h : Trace) (infilename : String) :
    List Event × Bool :=
  let f_in := env.fopen h infilename
  if f_in = false then
    ([Event.fopen infilename false, Event.err_open infilename] ++ (clean_up false false).1,
      (clean_up false false).2)
  else
    let t1 := [Event.fopen infilename true, Event.out_read infilename]
    let x3f := env.x3f_new_from_file (h ++ t1) infilename
    if x3f = false then
      (t1 ++ [Event.x3f_new_from_file infilename false, Event.err_read infilename] ++
        (clean_up false true).1, (clean_up false true).2)
    else
      let t2 := t1 ++ [Event.x3f_new_from_file infilename true]
      let j := if o.extract_jpg ≠ 0 then extractJpg env (h ++ t2) infilename else ([], true)
      if j.2 = false then (t2 ++ j.1, false)
      else
        let r := if o.extract_raw ≠ 0 then extractRaw env o (h ++ t2 ++ j.1) infilename
          else ([], true)
        if r.2 = false then (t2 ++ j.1 ++ r.1, false)
        else (t2 ++ j.1 ++ r.1 ++ (clean_up true true).1, (clean_up true true).2)

/-- The file loop `for (; i<argc; i++) {...}` (lines 85-170) on the arguments
that are left, with the trace so far and the counter `files`; the last
component tells whether the loop ran to its end with defined behaviour. -/
def fileLoop (env : Env) (o : Options) : Trace → Nat → List String → Trace × Nat × Bool
  | h, files, [] => (h, files, true)
  | h, files, infilename :: rest =>
    let r := processFile env o h infilename
    if r.2 then fileLoop env o (h ++ r.1) (files + 1) rest
    else (h ++ r.1, files + 1, false)

/-- The function `main(argc, argv)`: `argv` is the whole argument vector
(`argv[0]` the program name), the result is the trace of the run and the way
it ends. -/
def main (env : Env) (argv : List String) : Trace × Outcome :=
  match optionLoop env {} (argv.tail) with
  | .usage => ([Event.usage argv.head?], Outcome.exit 1)
  | .files o rest =>
    if (o.min ≠ -1 ∨ o.max ≠ -1) ∧ o.gamma.le_zero = true then
      ([Event.usage argv.head?], Outcome.exit 1)
    else if o.gamma.gt_zero = true ∧
        (o.file_type ≠ TIFF ∧ o.file_type ≠ PPMP3 ∧ o.file_type ≠ PPMP6) then
      ([Event.usage argv.head?], Outcome.exit 1)
    else
      let r := fileLoop env o [] 0 rest
      if r.2.2 = false then (r.1, Outcome.undefined)
      else if r.2.1 = 0 then (r.1 ++ [Event.usage argv.head?], Outcome.exit 1)
      else (r.1, Outcome.exit 0)

end X3F

namespace X3F

open raw_file_type_t x3f_return_t

/-! ## The command line as the usage text describes it -/

/-- A recognised option: one of the seven dump-kind flags, or `-gamma`, `-min`,
`-max` together with the argument that follows it. -/
inductive Token where
  | jpg
  | raw
  | tiff
  | ppm_ascii
  | ppm
  | histogram
  | loghist
  | gamma (value : String)
  | min (value : String)
  | max (value : String)
  deriving DecidableEq, Repr

/-- The dump-kind flag an argument spells, if any. -/
def flagToken (a : String) : Option Token :=
  if a = "-jpg" then some Token.jpg
  else if a = "-raw" then some Token.raw
  else if a = "-tiff" then some Token.tiff
  else if a = "-ppm-ascii" then some Token.ppm_ascii
  else if a = "-ppm" then some Token.ppm
  else if a = "-histogram" then some Token.histogram
  else if a = "-loghist" then some Token.loghist
  else none

/-- The option with a value that an argument and its follower spell, if any. -/
def valueToken (a v : String) : Option Token :=
  if a = "-gamma" then some (Token.gamma v)
  else if a = "-min" then some (Token.min v)
  else if a = "-max" then some (Token.max v)
  else none

/-- The options at the head of the argument list `argv[1..]`, read left to
right: a flag is one argument, an option with a value is two; reading stops at
the first argument that is neither. -/
def optionTokens : List String → List Token
  | [] => []
  | a :: rest =>
    match flagToken a with
    | some t => t :: optionTokens rest
    | none =>
      match rest with
      | v :: rest2 =>
        match valueToken a v with
        | some t => t :: optionTokens rest2
        | none => []
      | [] => []

/-- The arguments that remain after the options: from the first argument
that is neither a flag nor an option followed by its value. -/
def afterOptions : List String → List String
  | [] => []
  | a :: rest =>
    match flagToken a with
    | some _ => afterOptions rest
    | none =>
      match rest with
      | v :: rest2 =>
        match valueToken a v with
        | some _ => afterOptions rest2
        | none => a :: v :: rest2
      | [] => [a]

/-- An argument before the first file name starts with a dash and is not a
recognised option: the first argument after the options starts with a dash
(`-gamma`, `-min` or `-max` as the last argument is such an argument). -/
def offendingOption (args : List String) : Bool :=
  match afterOptions args with
  | a :: _ => startsWithDash a
  | [] => false

/-- The RAW-kind flags: all dump-kind flags except `-jpg`. -/
def Token.isRawKind : Token → Bool
  | Token.raw => true
  | Token.tiff => true
  | Token.ppm_ascii => true
  | Token.ppm => true
  | Token.histogram => true
  | Token.loghist => true
  | _ => false

/-- The RAW dump kind in effect: the last RAW-kind flag given, `-tiff` (the
default of the usage text) when there is none. -/
def rawKindInEffect (args : List String) : Token :=
  (((optionTokens args).filter Token.isRawKind).getLast?).getD Token.tiff

/-- The value of the last `-gamma` option, if one is given. -/
def gammaArg (args : List String) : Option String :=
  ((optionTokens args).filterMap
    (fun t => match t with | Token.gamma v => some v | _ => none)).getLast?

/-- The value of the last `-min` option, if one is given. -/
def minArg (args : List String) : Option String :=
  ((optionTokens args).filterMap
    (fun t => match t with | Token.min v => some v | _ => none)).getLast?

/-- The value of the last `-max` option, if one is given. -/
def maxArg (args : List String) : Option String :=
  ((optionTokens args).filterMap
    (fun t => match t with | Token.max v => some v | _ => none)).getLast?

/-- The gamma in effect: `atof` of the last `-gamma` value, `-1.0` (off)
without one. -/
def gammaInEffect (env : Env) (args : List String) : Double :=
  match gammaArg args with
  | some v => env.atof v
  | none => Double.minusOne

/-- The min in effect: `atoi` of the last `-min` value, `-1` (automatic)
without one. -/
def minInEffect (env : Env) (args : List String) : Int :=
  match minArg args with
  | some v => env.atoi v
  | none => -1

/-- The max in effect: `atoi` of the last `-max` value, `-1` (automatic)
without one. -/
def maxInEffect (env : Env) (args : List String) : Int :=
  match maxArg args with
  | some v => env.atoi v
  | none => -1

/-- The assignments one recognised option makes in the option loop. -/
def applyToken (env : Env) (o : Options) : Token → Options
  | Token.jpg => { o with extract_raw := 0, extract_jpg := 1 }
  | Token.raw => { o with extract_raw := 1, file_type := RAW }
  | Token.tiff => { o with extract_raw := 1, file_type := TIFF }
  | Token.ppm_ascii => { o with extract_raw := 1, file_type := PPMP3 }
  | Token.ppm => { o with extract_raw := 1, file_type := PPMP6 }
  | Token.histogram => { o with extract_raw := 1, file_type := HISTOGRAM }
  | Token.loghist =>
    { o with extract_raw := 1, file_type := HISTOGRAM, log_hist := 1 }
  | Token.gamma v => { o with gamma := env.atof v }
  | Token.min v => { o with min := env.atoi v }
  | Token.max v => { o with max := env.atoi v }

/-- The file type a RAW-kind flag selects. -/
def Token.fileType : Token → raw_file_type_t
  | Token.raw => RAW
  | Token.ppm_ascii => PPMP3
  | Token.ppm => PPMP6
  | Token.histogram => HISTOGRAM
  | Token.loghist => HISTOGRAM
  | _ => TIFF

/-! ## Kinds of events -/

/-- A call of one of the four RAW dump operations. -/
def Event.isRawDump : Event → Bool
  | Event.x3f_dump_raw_data _ _ => true
  | Event.x3f_dump_raw_data_as_tiff _ _ _ _ _ => true
  | Event.x3f_dump_raw_data_as_ppm _ _ _ _ _ _ => true
  | Event.x3f_dump_raw_data_as_histogram _ _ _ => true
  | _ => false

/-- A call of `x3f_dump_jpeg`. -/
def Event.isJpegDump : Event → Bool
  | Event.x3f_dump_jpeg _ _ => true
  | _ => false

/-- A load of the RAW section: `x3f_load_data` or `x3f_load_image_block` on
`x3f_get_raw(x3f)`. -/
def Event.isRawLoad : Event → Bool
  | Event.x3f_load_data DirEntry.raw _ => true
  | Event.x3f_load_image_block DirEntry.raw _ => true
  | _ => false

/-- The load call of the block `if (extract_raw)`: `x3f_load_image_block` for
the file type `RAW`, `x3f_load_data` for the others, both on `x3f_get_raw(x3f)`. -/
def loadEvent (o : Options) (ret : x3f_return_t) : Event :=
  if o.file_type = RAW then Event.x3f_load_image_block DirEntry.raw ret
  else Event.x3f_load_data DirEntry.raw ret

/-- The line printed when that load fails. -/
def loadError (o : Options) : Event :=
  if o.file_type = RAW then Event.err_load_unconverted else Event.err_load_raw

/-- The file name of an `fopen` call. -/
def Event.opened : Event → Option String
  | Event.fopen infilename _ => some infilename
  | _ => none

/-- The output name and the `log_hist` argument of a call of
`x3f_dump_raw_data_as_histogram`. -/
def Event.histogramCall : Event → Option (String × Int)
  | Event.x3f_dump_raw_data_as_histogram outfilename log_hist _ => some (outfilename, log_hist)
  | _ => none

/-- The output name of a call of one of the four RAW dump operations. -/
def Event.rawDumpName : Event → Option String
  | Event.x3f_dump_raw_data outfilename _ => some outfilename
  | Event.x3f_dump_raw_data_as_tiff outfilename _ _ _ _ => some outfilename
  | Event.x3f_dump_raw_data_as_ppm outfilename _ _ _ _ _ => some outfilename
  | Event.x3f_dump_raw_data_as_histogram outfilename _ _ => some outfilename
  | _ => none

/-- The output name of a call of `x3f_dump_jpeg`. -/
def Event.jpegCall : Event → Option String
  | Event.x3f_dump_jpeg outfilename _ => some outfilename
  | _ => none

/-- A file name of 1020 bytes (1020 times the letter `a`): with a suffix of
four bytes and the terminating zero it needs 1025 bytes. -/
def longName : String := String.mk (List.replicate 1020 'a')

/-- The options are accepted: no argument in option position is rejected, and
the two checks of lines 75-83 pass for the values in effect. -/
def optionsAccepted (env : Env) (args : List String) : Prop :=
  offendingOption args = false ∧
  ¬ ((minInEffect env args ≠ -1 ∨ maxInEffect env args ≠ -1) ∧
      (gammaInEffect env args).le_zero = true) ∧
  ¬ ((gammaInEffect env args).gt_zero = true ∧
      (rawKindInEffect args = Token.raw ∨ rawKindInEffect args = Token.histogram ∨
        rawKindInEffect args = Token.loghist))

instance (env : Env) (args : List String) : Decidable (optionsAccepted env args) := by
  unfold optionsAccepted
  exact inferInstance

/-! ## A concrete environment -/

/-- An environment for concrete runs.  `atof` and `atoi` agree with the C
library on the strings used below (`2.2` is `0x400199999999999A`, `0` is
`+0.0`); the file `missing.x3f` cannot be opened; writing a PPM file fails
with `X3F_OUTFILE_ERROR`; every other call succeeds. -/
def demoEnv : Env where
  atof := fun s => if s = "2.2" then ⟨0x400199999999999A⟩ else ⟨0⟩
  atoi := fun s => if s = "-1" then -1 else if s = "5" then 5 else 0
  fopen := fun _ infilename => infilename ≠ "missing.x3f"
  x3f_new_from_file := fun _ _ => true
  x3f_load_data := fun _ _ => X3F_OK
  x3f_load_image_block := fun _ _ => X3F_OK
  x3f_dump_jpeg := fun _ _ => X3F_OK
  x3f_dump_raw_data := fun _ _ => X3F_OK
  x3f_dump_raw_data_as_tiff := fun _ _ _ _ _ => X3F_OK
  x3f_dump_raw_data_as_ppm := fun _ _ _ _ _ _ => X3F_OUTFILE_ERROR
  x3f_dump_raw_data_as_histogram := fun _ _ _ => X3F_OK

end X3F

namespace X3F

open raw_file_type_t x3f_return_t

/-! ## The option loop reads the options one token at a time -/

theorem flagToken_none (a : String) (h : flagToken a = none) :
    a ≠ "-jpg" ∧ a ≠ "-raw" ∧ a ≠ "-tiff" ∧ a ≠ "-ppm-ascii" ∧ a ≠ "-ppm" ∧
      a ≠ "-histogram" ∧ a ≠ "-loghist" := by
  unfold flagToken at h
  split_ifs at h
  simp_all

theorem valueToken_none (a v : String) (h : valueToken a v = none) :
    a ≠ "-gamma" ∧ a ≠ "-min" ∧ a ≠ "-max" := by
  unfold valueToken at h
  split_ifs at h
  simp_all

theorem optionLoop_eq_tokens (env : Env) (args : List String) :
    ∀ o : Options, optionLoop env o args =
      if offendingOption args = true then OptionLoopResult.usage
      else OptionLoopResult.files
        ((optionTokens args).foldl (applyToken env) o) (afterOptions args) := by
  induction args using optionTokens.induct with
  | case1 => intro o; simp [optionLoop, offendingOption, afterOptions, optionTokens]
  | case2 a rest t ht ih =>
    intro o
    have haft : afterOptions (a :: rest) = afterOptions rest := by
      cases rest <;> simp [afterOptions, ht]
    have hoff : offendingOption (a :: rest) = offendingOption rest := by
      simp [offendingOption, haft]
    have htok : optionTokens (a :: rest) = t :: optionTokens rest := by
      cases rest <;> simp [optionTokens, ht]
    rw [hoff, htok, haft, List.foldl_cons, ← ih]
    unfold flagToken at ht
    split_ifs at ht with h1 h2 h3 h4 h5 h6 h7 <;>
      simp only [Option.some.injEq] at ht <;> subst ht <;> subst_vars <;>
      cases rest <;> simp [optionLoop, applyToken]
  | case3 a hf v rest2 t ht ih =>
    intro o
    have haft : afterOptions (a :: v :: rest2) = afterOptions rest2 := by
      simp [afterOptions, hf, ht]
    have hoff : offendingOption (a :: v :: rest2) = offendingOption rest2 := by
      simp [offendingOption, haft]
    have htok : optionTokens (a :: v :: rest2) = t :: optionTokens rest2 := by
      simp [optionTokens, hf, ht]
    rw [hoff, htok, haft, List.foldl_cons, ← ih]
    obtain ⟨n1, n2, n3, n4, n5, n6, n7⟩ := flagToken_none a hf
    unfold valueToken at ht
    split_ifs at ht with h1 h2 h3 <;>
      simp only [Option.some.injEq] at ht <;> subst ht <;> subst_vars <;>
      simp [optionLoop, applyToken]
  | case4 a hf v rest2 hv =>
    intro o
    obtain ⟨n1, n2, n3, n4, n5, n6, n7⟩ := flagToken_none a hf
    obtain ⟨m1, m2, m3⟩ := valueToken_none a v hv
    simp [optionLoop, offendingOption, afterOptions, optionTokens, hf, hv, n1, n2, n3,
      n4, n5, n6, n7, m1, m2, m3]
  | case5 a hf =>
    intro o
    obtain ⟨n1, n2, n3, n4, n5, n6, n7⟩ := flagToken_none a hf
    simp [optionLoop, offendingOption, afterOptions, optionTokens, hf, n1, n2, n3,
      n4, n5, n6, n7]

/-! ## What the options leave in the variables of `main` -/

theorem foldl_extract_jpg (env : Env) (toks : List Token) :
    ∀ o : Options, ((toks.foldl (applyToken env) o).extract_jpg ≠ 0 ↔
      (Token.jpg ∈ toks ∨ o.extract_jpg ≠ 0)) := by
  induction toks with
  | nil => intro o; simp
  | cons t ts ih =>
    intro o
    rw [List.foldl_cons, ih]
    cases t <;> simp [applyToken]

theorem foldl_log_hist (env : Env) (toks : List Token) :
    ∀ o : Options, (toks.foldl (applyToken env) o).log_hist =
      if Token.loghist ∈ toks then 1 else o.log_hist := by
  induction toks with
  | nil => intro o; simp
  | cons t ts ih =>
    intro o
    rw [List.foldl_cons, ih]
    cases t <;> simp [applyToken]

theorem foldl_file_type (env : Env) (toks : List Token) :
    ∀ o : Options, (toks.foldl (applyToken env) o).file_type =
      match (toks.filter Token.isRawKind).getLast? with
      | some k => k.fileType
      | none => o.file_type := by
  induction toks with
  | nil => intro o; simp
  | cons t ts ih =>
    intro o
    rw [List.foldl_cons, ih]
    cases t <;>
      simp only [applyToken, Token.isRawKind, List.filter_cons, List.getLast?_cons,
        if_true, Bool.false_eq_true, if_false] <;>
      generalize (ts.filter Token.isRawKind).getLast? = l <;>
      cases l <;> simp [Token.fileType]

theorem foldl_gamma (env : Env) (toks : List Token) :
    ∀ o : Options, (toks.foldl (applyToken env) o).gamma =
      match (toks.filterMap
        (fun t => match t with | Token.gamma v => some v | _ => none)).getLast? with
      | some v => env.atof v
      | none => o.gamma := by
  induction toks with
  | nil => intro o; simp
  | cons t ts ih =>
    intro o
    rw [List.foldl_cons, ih]
    cases t <;>
      simp only [applyToken, List.filterMap_cons, List.getLast?_cons] <;>
      generalize (ts.filterMap
        (fun t => match t with | Token.gamma v => some v | _ => none)).getLast? = l <;>
      cases l <;> simp

theorem foldl_min (env : Env) (toks : List Token) :
    ∀ o : Options, (toks.foldl (applyToken env) o).min =
      match (toks.filterMap
        (fun t => match t with | Token.min v => some v | _ => none)).getLast? with
      | some v => env.atoi v
      | none => o.min := by
  induction toks with
  | nil => intro o; simp
  | cons t ts ih =>
    intro o
    rw [List.foldl_cons, ih]
    cases t <;>
      simp only [applyToken, List.filterMap_cons, List.getLast?_cons] <;>
      generalize (ts.filterMap
        (fun t => match t with | Token.min v => some v | _ => none)).getLast? = l <;>
      cases l <;> simp

theorem foldl_max (env : Env) (toks : List Token) :
    ∀ o : Options, (toks.foldl (applyToken env) o).max =
      match (toks.filterMap
        (fun t => match t with | Token.max v => some v | _ => none)).getLast? with
      | some v => env.atoi v
      | none => o.max := by
  induction toks with
  | nil => intro o; simp
  | cons t ts ih =>
    intro o
    rw [List.foldl_cons, ih]
    cases t <;>
      simp only [applyToken, List.filterMap_cons, List.getLast?_cons] <;>
      generalize (ts.filterMap
        (fun t => match t with | Token.max v => some v | _ => none)).getLast? = l <;>
      cases l <;> simp

theorem jpg_split_cons (t : Token) (ts : List Token) :
    (∃ pre post, t :: ts = pre ++ Token.jpg :: post ∧
        ∀ k ∈ post, Token.isRawKind k = false) ↔
      ((t = Token.jpg ∧ ∀ k ∈ ts, Token.isRawKind k = false) ∨
        ∃ pre post, ts = pre ++ Token.jpg :: post ∧
          ∀ k ∈ post, Token.isRawKind k = false) := by
  constructor
  · rintro ⟨pre, post, h, hp⟩
    cases pre with
    | nil =>
      simp only [List.nil_append, List.cons.injEq] at h
      left
      exact ⟨h.1, h.2 ▸ hp⟩
    | cons p pre2 =>
      simp only [List.cons_append, List.cons.injEq] at h
      right
      exact ⟨pre2, post, h.2, hp⟩
  · rintro (⟨h1, h2⟩ | ⟨pre, post, h, hp⟩)
    · exact ⟨[], ts, by simp [h1], h2⟩
    · exact ⟨t :: pre, post, by simp [h], hp⟩

theorem foldl_extract_raw (env : Env) (toks : List Token) :
    ∀ o : Options, ((toks.foldl (applyToken env) o).extract_raw = 0 ↔
      ((∃ pre post, toks = pre ++ Token.jpg :: post ∧
          ∀ k ∈ post, Token.isRawKind k = false) ∨
        (o.extract_raw = 0 ∧ ∀ k ∈ toks, Token.isRawKind k = false))) := by
  induction toks with
  | nil => intro o; simp
  | cons t ts ih =>
    intro o
    rw [List.foldl_cons, ih, jpg_split_cons]
    simp only [List.forall_mem_cons]
    generalize (∃ pre post, ts = pre ++ Token.jpg :: post ∧
      ∀ k ∈ post, Token.isRawKind k = false) = A
    generalize (∀ k ∈ ts, Token.isRawKind k = false) = B
    cases t <;> simp [applyToken, Token.isRawKind] <;> tauto

/-- The option variables at the end of the option loop, read off the options
given: each variable holds what the last option that sets it assigned. -/
theorem optionLoop_files (env : Env) (args rest : List String) (o : Options)
    (h : optionLoop env {} args = OptionLoopResult.files o rest) :
    offendingOption args = false ∧ rest = afterOptions args ∧
    (o.extract_jpg ≠ 0 ↔ Token.jpg ∈ optionTokens args) ∧
    (o.extract_raw = 0 ↔ ∃ pre post, optionTokens args = pre ++ Token.jpg :: post ∧
      ∀ k ∈ post, Token.isRawKind k = false) ∧
    o.file_type = (rawKindInEffect args).fileType ∧
    o.log_hist = (if Token.loghist ∈ optionTokens args then 1 else 0) ∧
    o.gamma = gammaInEffect env args ∧
    o.min = minInEffect env args ∧
    o.max = maxInEffect env args := by
  rw [optionLoop_eq_tokens] at h
  split_ifs at h with hoff
  simp only [OptionLoopResult.files.injEq] at h
  obtain ⟨ho, hr⟩ := h
  subst ho
  refine ⟨by simpa using hoff, hr.symm, ?_, ?_, ?_, ?_, ?_, ?_, ?_⟩
  · rw [foldl_extract_jpg]; simp
  · rw [foldl_extract_raw]; simp
  · rw [foldl_file_type, rawKindInEffect]
    cases ((optionTokens args).filter Token.isRawKind).getLast? <;> simp [Token.fileType]
  · rw [foldl_log_hist]
  · rw [foldl_gamma, gammaInEffect, gammaArg]
  · rw [foldl_min, minInEffect, minArg]
  · rw [foldl_max, maxInEffect, maxArg]

/-! ## Runs of `main` that end in `usage` -/

theorem main_usage_of_offending (env : Env) (argv : List String)
    (h : offendingOption (argv.tail) = true) :
    main env argv = ([Event.usage argv.head?], Outcome.exit 1) := by
  simp [main, optionLoop_eq_tokens, h]

theorem main_usage_of_no_file (env : Env) (argv : List String)
    (h : afterOptions (argv.tail) = []) :
    main env argv = ([Event.usage argv.head?], Outcome.exit 1) := by
  unfold main
  rw [optionLoop_eq_tokens]
  split_ifs with hoff
  · rfl
  · simp only [h]
    split_ifs <;> simp_all [fileLoop]

/-! ## One iteration of the file loop -/

theorem strlen_suffix : strlen ".jpg" = 4 ∧ strlen ".raw" = 4 ∧ strlen ".tif" = 4 ∧
    strlen ".ppm" = 4 ∧ strlen ".csv" = 4 := by
  decide

theorem strcpy_strcat_fits (n suffix : String)
    (hfit : strlen n + strlen suffix + 1 ≤ OUTFILENAME_SIZE) :
    (strcpy_outfilename n).bind (fun s => strcat_outfilename s suffix) =
      some (n ++ suffix) := by
  have h1 : strlen n + 1 ≤ OUTFILENAME_SIZE := by omega
  simp [strcpy_outfilename, strcat_outfilename, h1, hfit]

theorem extractJpg_rawLoad (env : Env) (h : Trace) (n : String) :
    (extractJpg env h n).1.filter Event.isRawLoad = [] := by
  simp only [extractJpg]
  split <;> (try split_ifs) <;> simp [List.filter_cons, Event.isRawLoad]

theorem extractJpg_rawDump (env : Env) (h : Trace) (n : String) :
    (extractJpg env h n).1.filter Event.isRawDump = [] := by
  simp only [extractJpg]
  split <;> (try split_ifs) <;> simp [List.filter_cons, Event.isRawDump]

theorem extractJpg_opened (env : Env) (h : Trace) (n : String) :
    (extractJpg env h n).1.filterMap Event.opened = [] := by
  simp only [extractJpg]
  split <;> (try split_ifs) <;> simp [List.filterMap_cons, Event.opened]

theorem extractJpg_histogramCall (env : Env) (h : Trace) (n : String) :
    (extractJpg env h n).1.filterMap Event.histogramCall = [] := by
  simp only [extractJpg]
  split <;> (try split_ifs) <;> simp [List.filterMap_cons, Event.histogramCall]

/-- With a name of at most 1019 bytes the JPEG block runs to its end and calls
`x3f_dump_jpeg` once, on the input name followed by `.jpg`. -/
theorem extractJpg_fits (env : Env) (h : Trace) (n : String)
    (hfit : strlen n + 5 ≤ OUTFILENAME_SIZE) :
    (extractJpg env h n).2 = true ∧
      (extractJpg env h n).1.filterMap Event.jpegCall = [n ++ ".jpg"] := by
  have hs := strcpy_strcat_fits n ".jpg" (by rw [strlen_suffix.1]; omega)
  simp only [extractJpg, hs]
  split_ifs <;> simp [List.filterMap_cons, Event.jpegCall]

theorem caseHistogram_events (env : Env) (o : Options) (h : Trace) (out : String) :
    (caseHistogram env o h out).1.filter Event.isRawLoad = [] ∧
    (caseHistogram env o h out).1.filterMap Event.opened = [] ∧
    (caseHistogram env o h out).1.filter Event.isJpegDump = [] ∧
    (∀ name lh ret, Event.x3f_dump_raw_data_as_histogram name lh ret ∈
      (caseHistogram env o h out).1 → lh = o.log_hist) ∧
    (∀ DE ret, Event.x3f_load_image_block DE ret ∉ (caseHistogram env o h out).1) := by
  simp only [caseHistogram]
  split <;> simp [List.filter_cons, List.filterMap_cons, Event.isRawLoad, Event.opened,
    Event.isJpegDump]
  intro name lh ret _ hlh _
  exact hlh

theorem dumpSwitch_events (env : Env) (o : Options) (h : Trace) (out : String) :
    (dumpSwitch env o h out).1.filter Event.isRawLoad = [] ∧
    (dumpSwitch env o h out).1.filterMap Event.opened = [] ∧
    (dumpSwitch env o h out).1.filter Event.isJpegDump = [] ∧
    (∀ name lh ret, Event.x3f_dump_raw_data_as_histogram name lh ret ∈
      (dumpSwitch env o h out).1 → lh = o.log_hist) ∧
    (∀ DE ret, Event.x3f_load_image_block DE ret ∉ (dumpSwitch env o h out).1) := by
  have hp : ∀ h2 out2,
      (casePpm env o h2 out2).1.filter Event.isRawLoad = [] ∧
      (casePpm env o h2 out2).1.filterMap Event.opened = [] ∧
      (casePpm env o h2 out2).1.filter Event.isJpegDump = [] ∧
      (∀ name lh ret, Event.x3f_dump_raw_data_as_histogram name lh ret ∈
        (casePpm env o h2 out2).1 → lh = o.log_hist) ∧
      (∀ DE ret, Event.x3f_load_image_block DE ret ∉ (casePpm env o h2 out2).1) := by
    intro h2 out2
    simp only [casePpm]
    split
    · simp
    · rename_i out3 _
      obtain ⟨c1, c2, c3, c4, c5⟩ := caseHistogram_events env o
        (h2 ++ [Event.out_dump_ppm out3, Event.x3f_dump_raw_data_as_ppm out3 o.gamma o.min
          o.max (if o.file_type = PPMP6 then 1 else 0)
          (env.x3f_dump_raw_data_as_ppm (h2 ++ [Event.out_dump_ppm out3]) out3 o.gamma
            o.min o.max (if o.file_type = PPMP6 then 1 else 0))]) out3
      refine ⟨?_, ?_, ?_, ?_, ?_⟩
      · simp [List.filter_append, List.filter_cons, Event.isRawLoad, c1]
      · simp [List.filterMap_append, List.filterMap_cons, Event.opened, c2]
      · simp [List.filter_append, List.filter_cons, Event.isJpegDump, c3]
      · intro name lh ret hm
        simp only [List.mem_append] at hm
        rcases hm with hm | hm
        · simp at hm
        · exact c4 name lh ret hm
      · intro DE ret hm
        simp only [List.mem_append] at hm
        rcases hm with hm | hm
        · simp at hm
        · exact c5 DE ret hm
  unfold dumpSwitch
  split
  · split <;> simp [List.filter_cons, List.filterMap_cons, Event.isRawLoad, Event.opened,
      Event.isJpegDump]
  · split <;> simp [List.filter_cons, List.filterMap_cons, Event.isRawLoad, Event.opened,
      Event.isJpegDump]
  · exact hp h out
  · exact hp h out
  · exact caseHistogram_events env o h out

theorem dumpRaw_events (env : Env) (o : Options) (h : Trace) (n : String) :
    (dumpRaw env o h n).1.filter Event.isRawLoad = [] ∧
    (dumpRaw env o h n).1.filterMap Event.opened = [] ∧
    (dumpRaw env o h n).1.filter Event.isJpegDump = [] ∧
    (∀ name lh ret, Event.x3f_dump_raw_data_as_histogram name lh ret ∈
      (dumpRaw env o h n).1 → lh = o.log_hist) ∧
    (∀ DE ret, Event.x3f_load_image_block DE ret ∉ (dumpRaw env o h n).1) := by
  simp only [dumpRaw]
  split
  · simp
  · rename_i out _
    obtain ⟨c1, c2, c3, c4, c5⟩ := dumpSwitch_events env o h out
    split
    · exact ⟨c1, c2, c3, c4, c5⟩
    · refine ⟨?_, ?_, ?_, ?_, ?_⟩
      · rw [List.filter_append, c1]
        split_ifs <;> simp [List.filter_cons, Event.isRawLoad]
      · rw [List.filterMap_append, c2]
        split_ifs <;> simp [List.filterMap_cons, Event.opened]
      · rw [List.filter_append, c3]
        split_ifs <;> simp [List.filter_cons, Event.isJpegDump]
      · intro name lh ret hm
        simp only [List.mem_append] at hm
        rcases hm with hm | hm
        · exact c4 name lh ret hm
        · split_ifs at hm <;> simp at hm
      · intro DE ret hm
        simp only [List.mem_append] at hm
        rcases hm with hm | hm
        · exact c5 DE ret hm
        · split_ifs at hm <;> simp at hm

/-- With the file type `HISTOGRAM` and a name of at most 1019 bytes the dump
part runs to its end and calls `x3f_dump_raw_data_as_histogram` once, on the
input name followed by `.csv`, with the value of `log_hist`. -/
theorem dumpRaw_histogram_fits (env : Env) (o : Options) (h : Trace) (n : String)
    (hft : o.file_type = HISTOGRAM) (hfit : strlen n + 5 ≤ OUTFILENAME_SIZE) :
    (dumpRaw env o h n).2 = true ∧
      (dumpRaw env o h n).1.filterMap Event.histogramCall = [(n ++ ".csv", o.log_hist)] := by
  have h1 : strlen n + 1 ≤ OUTFILENAME_SIZE := by omega
  have h2 : strlen n + strlen ".csv" + 1 ≤ OUTFILENAME_SIZE := by
    rw [strlen_suffix.2.2.2.2]; omega
  simp only [dumpRaw, dumpSwitch, caseHistogram, strcpy_outfilename, strcat_outfilename,
    hft, h1, h2, if_true]
  split_ifs <;> simp [List.filterMap_cons, Event.histogramCall]

theorem strlen_append (a b : String) : strlen (a ++ b) = strlen a + strlen b := by
  cases a with
  | mk as =>
    cases b with
    | mk bs =>
      have e : (String.mk as ++ String.mk bs) = String.mk (as ++ bs) := rfl
      rw [e]
      simp [strlen, String.utf8ByteSize_mk, String.utf8Len_append]

theorem strcat_fits (dst suffix : String)
    (hfit : strlen dst + strlen suffix + 1 ≤ OUTFILENAME_SIZE) :
    strcat_outfilename dst suffix = some (dst ++ suffix) := by
  simp [strcat_outfilename, hfit]

/-- With a name of at most 1015 bytes no `strcpy` or `strcat` of the dump part
overflows, whatever the file type. -/
theorem dumpRaw_fits (env : Env) (o : Options) (h : Trace) (n : String)
    (hfit : strlen n + 9 ≤ OUTFILENAME_SIZE) :
    (dumpRaw env o h n).2 = true := by
  obtain ⟨s1, s2, s3, s4, s5⟩ := strlen_suffix
  have h1 : strcpy_outfilename n = some n := by
    simp only [strcpy_outfilename]; rw [if_pos (by omega)]
  have c2 := strcat_fits n ".raw" (by omega)
  have c3 := strcat_fits n ".tif" (by omega)
  have c4 := strcat_fits n ".ppm" (by omega)
  have c5 := strcat_fits n ".csv" (by omega)
  have c6 := strcat_fits (n ++ ".ppm") ".csv" (by rw [strlen_append]; omega)
  cases hft : o.file_type <;>
    simp [dumpRaw, dumpSwitch, casePpm, caseHistogram, hft, h1, c2, c3, c4, c5, c6]

/-- For the file types `PPMP3` and `PPMP6` (and a name of at most 1015 bytes)
the dump part calls two dump operations, the first on the input name followed
by `.ppm`, the second on that name followed by `.csv`. -/
theorem dumpRaw_ppm (env : Env) (o : Options) (h : Trace) (n : String)
    (hft : o.file_type = PPMP3 ∨ o.file_type = PPMP6)
    (hfit : strlen n + 9 ≤ OUTFILENAME_SIZE) :
    (dumpRaw env o h n).1.filterMap Event.rawDumpName =
      [n ++ ".ppm", n ++ ".ppm" ++ ".csv"] := by
  obtain ⟨s1, s2, s3, s4, s5⟩ := strlen_suffix
  have h1 : strcpy_outfilename n = some n := by
    simp only [strcpy_outfilename]; rw [if_pos (by omega)]
  have c4 := strcat_fits n ".ppm" (by omega)
  have c6 := strcat_fits (n ++ ".ppm") ".csv" (by rw [strlen_append]; omega)
  have hsw : dumpSwitch env o h n = casePpm env o h n := by
    rcases hft with hft | hft <;> simp only [dumpSwitch, hft]
  simp only [dumpRaw, h1, hsw, casePpm, caseHistogram, c4, c6]
  split_ifs <;> simp [List.filterMap_cons, Event.rawDumpName]

theorem extractRaw_shape (env : Env) (o : Options) (h : Trace) (n : String) :
    ∃ ret, (ret ≠ X3F_OK ∧ extractRaw env o h n =
          ([Event.out_load_raw n, loadEvent o ret, loadError o], true)) ∨
      (ret = X3F_OK ∧ ∃ h2, extractRaw env o h n =
          ([Event.out_load_raw n, loadEvent o ret] ++ (dumpRaw env o h2 n).1,
            (dumpRaw env o h2 n).2)) := by
  by_cases hft : o.file_type = RAW
  · refine ⟨env.x3f_load_image_block (h ++ [Event.out_load_raw n]) DirEntry.raw, ?_⟩
    by_cases hr : X3F_OK ≠ env.x3f_load_image_block (h ++ [Event.out_load_raw n]) DirEntry.raw
    · left
      exact ⟨fun e => hr e.symm, by simp [extractRaw, hft, hr, loadEvent, loadError]⟩
    · right
      exact ⟨(not_not.mp hr).symm, _, by simp [extractRaw, hft, hr, loadEvent]; exact ⟨rfl, rfl⟩⟩
  · refine ⟨env.x3f_load_data (h ++ [Event.out_load_raw n]) DirEntry.raw, ?_⟩
    by_cases hr : X3F_OK ≠ env.x3f_load_data (h ++ [Event.out_load_raw n]) DirEntry.raw
    · left
      exact ⟨fun e => hr e.symm, by simp [extractRaw, hft, hr, loadEvent, loadError]⟩
    · right
      exact ⟨(not_not.mp hr).symm, _, by simp [extractRaw, hft, hr, loadEvent]; exact ⟨rfl, rfl⟩⟩

theorem extractRaw_events (env : Env) (o : Options) (h : Trace) (n : String) :
    (extractRaw env o h n).1.filterMap Event.opened = [] ∧
    (extractRaw env o h n).1.filter Event.isJpegDump = [] ∧
    (∀ name lh ret, Event.x3f_dump_raw_data_as_histogram name lh ret ∈
      (extractRaw env o h n).1 → lh = o.log_hist) ∧
    (∀ DE ret, Event.x3f_load_image_block DE ret ∈ (extractRaw env o h n).1 →
      DE = DirEntry.raw ∧ o.file_type = RAW) ∧
    (∀ ret, Event.x3f_load_data DirEntry.raw ret ∈ (extractRaw env o h n).1 →
      o.file_type ≠ RAW) := by
  obtain ⟨r, ⟨_, hs⟩ | ⟨_, h2, hs⟩⟩ := extractRaw_shape env o h n
  · rw [hs]
    by_cases hft : o.file_type = RAW <;>
      simp [List.filterMap_cons, List.filter_cons, Event.opened, Event.isJpegDump,
        loadEvent, loadError, hft]
  · obtain ⟨_, c2, c3, c4, c5⟩ := dumpRaw_events env o h2 n
    rw [hs]
    have c1 := (dumpRaw_events env o h2 n).1
    have c1m : ∀ ret, Event.x3f_load_data DirEntry.raw ret ∉ (dumpRaw env o h2 n).1 := by
      intro ret hm
      have : Event.x3f_load_data DirEntry.raw ret ∈
          (dumpRaw env o h2 n).1.filter Event.isRawLoad := List.mem_filter.mpr ⟨hm, rfl⟩
      rw [c1] at this
      simp at this
    refine ⟨?_, ?_, ?_, ?_, ?_⟩
    · rw [List.filterMap_append, c2]
      by_cases hft : o.file_type = RAW <;>
        simp [List.filterMap_cons, Event.opened, loadEvent, hft]
    · rw [List.filter_append, c3]
      by_cases hft : o.file_type = RAW <;>
        simp [List.filter_cons, Event.isJpegDump, loadEvent, hft]
    · intro name lh ret hm
      simp only [List.mem_append] at hm
      rcases hm with hm | hm
      · by_cases hft : o.file_type = RAW <;> simp [loadEvent, hft] at hm
      · exact c4 name lh ret hm
    · intro DE ret hm
      simp only [List.mem_append] at hm
      rcases hm with hm | hm
      · by_cases hft : o.file_type = RAW <;> simp [loadEvent, hft] at hm
        exact ⟨hm.1, hft⟩
      · exact absurd hm (c5 DE ret)
    · intro ret hm
      simp only [List.mem_append] at hm
      rcases hm with hm | hm
      · by_cases hft : o.file_type = RAW <;> simp [loadEvent, hft] at hm
        exact hft
      · exact absurd hm (c1m ret)

/-- With a name of at most 1015 bytes the RAW block has defined behaviour. -/
theorem extractRaw_fits (env : Env) (o : Options) (h : Trace) (n : String)
    (hfit : strlen n + 9 ≤ OUTFILENAME_SIZE) :
    (extractRaw env o h n).2 = true := by
  obtain ⟨r, ⟨_, hs⟩ | ⟨_, h2, hs⟩⟩ := extractRaw_shape env o h n
  · rw [hs]
  · rw [hs]
    exact dumpRaw_fits env o h2 n hfit

/-- With the file type `HISTOGRAM`, a RAW section that loads and a name of at
most 1019 bytes, the RAW block runs to its end and calls
`x3f_dump_raw_data_as_histogram` once, on the input name followed by `.csv`,
with the value of `log_hist`. -/
theorem extractRaw_histogram_fits (env : Env) (o : Options) (h : Trace) (n : String)
    (hft : o.file_type = HISTOGRAM)
    (hload : ∀ h2, env.x3f_load_data h2 DirEntry.raw = X3F_OK)
    (hfit : strlen n + 5 ≤ OUTFILENAME_SIZE) :
    (extractRaw env o h n).2 = true ∧
      (extractRaw env o h n).1.filterMap Event.histogramCall =
        [(n ++ ".csv", o.log_hist)] := by
  have hne : o.file_type ≠ RAW := by rw [hft]; decide
  obtain ⟨c1, c2⟩ := dumpRaw_histogram_fits env o
    (h ++ [Event.out_load_raw n, Event.x3f_load_data DirEntry.raw X3F_OK]) n hft hfit
  simp only [extractRaw, hne, hload, if_false, ne_eq, not_true_eq_false]
  refine ⟨c1, ?_⟩
  rw [List.filterMap_append, c2]
  simp [List.filterMap_cons, Event.histogramCall]

/-- The events of an iteration: the two exits before any dump, or the three
events of a file that was read, then the events of the JPEG block (if it is
entered), of the RAW block (if it is reached and entered) and of `clean_up`
(if it is reached). -/
theorem processFile_parts (env : Env) (o : Options) (h : Trace) (n : String) :
    ((processFile env o h n).1 = [Event.fopen n false, Event.err_open n,
        Event.x3f_delete false, Event.fclose false] ∧
      (processFile env o h n).2 = false) ∨
    ((processFile env o h n).1 = [Event.fopen n true, Event.out_read n,
        Event.x3f_new_from_file n false, Event.err_read n,
        Event.x3f_delete false, Event.fclose true] ∧
      (processFile env o h n).2 = true) ∨
    (∃ J R C, (processFile env o h n).1 =
        [Event.fopen n true, Event.out_read n, Event.x3f_new_from_file n true] ++
          J ++ R ++ C ∧
      (J = [] ∨ (o.extract_jpg ≠ 0 ∧ ∃ h1, J = (extractJpg env h1 n).1)) ∧
      (R = [] ∨ (o.extract_raw ≠ 0 ∧ ∃ h2, R = (extractRaw env o h2 n).1)) ∧
      (C = [] ∨ C = [Event.x3f_delete true, Event.fclose true])) := by
  by_cases hf : env.fopen h n = false
  · left
    simp [processFile, hf, clean_up]
  · right
    by_cases hx : env.x3f_new_from_file
        (h ++ [Event.fopen n true, Event.out_read n]) n = false
    · left
      simp [processFile, hf, hx, clean_up]
    · right
      have hf2 : env.fopen h n = true := by simpa using hf
      have hx2 : env.x3f_new_from_file
          (h ++ [Event.fopen n true, Event.out_read n]) n = true := by simpa using hx
      have hpf : processFile env o h n =
          if (if o.extract_jpg ≠ 0 then extractJpg env
              (h ++ [Event.fopen n true, Event.out_read n, Event.x3f_new_from_file n true]) n
              else ([], true)).2 = false
          then ([Event.fopen n true, Event.out_read n, Event.x3f_new_from_file n true] ++
            (if o.extract_jpg ≠ 0 then extractJpg env
              (h ++ [Event.fopen n true, Event.out_read n, Event.x3f_new_from_file n true]) n
              else ([], true)).1, false)
          else if (if o.extract_raw ≠ 0 then extractRaw env o
              (h ++ [Event.fopen n true, Event.out_read n, Event.x3f_new_from_file n true] ++
                (if o.extract_jpg ≠ 0 then extractJpg env
                  (h ++ [Event.fopen n true, Event.out_read n,
                    Event.x3f_new_from_file n true]) n
                  else ([], true)).1) n
              else ([], true)).2 = false
          then ([Event.fopen n true, Event.out_read n, Event.x3f_new_from_file n true] ++
            (if o.extract_jpg ≠ 0 then extractJpg env
              (h ++ [Event.fopen n true, Event.out_read n, Event.x3f_new_from_file n true]) n
              else ([], true)).1 ++
            (if o.extract_raw ≠ 0 then extractRaw env o
              (h ++ [Event.fopen n true, Event.out_read n, Event.x3f_new_from_file n true] ++
                (if o.extract_jpg ≠ 0 then extractJpg env
                  (h ++ [Event.fopen n true, Event.out_read n,
                    Event.x3f_new_from_file n true]) n
                  else ([], true)).1) n
              else ([], true)).1, false)
          else ([Event.fopen n true, Event.out_read n, Event.x3f_new_from_file n true] ++
            (if o.extract_jpg ≠ 0 then extractJpg env
              (h ++ [Event.fopen n true, Event.out_read n, Event.x3f_new_from_file n true]) n
              else ([], true)).1 ++
            (if o.extract_raw ≠ 0 then extractRaw env o
              (h ++ [Event.fopen n true, Event.out_read n, Event.x3f_new_from_file n true] ++
                (if o.extract_jpg ≠ 0 then extractJpg env
                  (h ++ [Event.fopen n true, Event.out_read n,
                    Event.x3f_new_from_file n true]) n
                  else ([], true)).1) n
              else ([], true)).1 ++ [Event.x3f_delete true, Event.fclose true], true) := by
        simp [processFile, hf2, hx2, clean_up]
      generalize hJ : (if o.extract_jpg ≠ 0 then extractJpg env
        (h ++ [Event.fopen n true, Event.out_read n, Event.x3f_new_from_file n true]) n
        else ([], true)) = j at hpf
      have hJ2 : j.1 = [] ∨ (o.extract_jpg ≠ 0 ∧ ∃ h1, j.1 = (extractJpg env h1 n).1) := by
        by_cases hj : o.extract_jpg = 0
        · left; rw [← hJ]; simp [hj]
        · right
          refine ⟨hj, h ++ [Event.fopen n true, Event.out_read n,
            Event.x3f_new_from_file n true], ?_⟩
          rw [← hJ, if_pos hj]
      generalize hR : (if o.extract_raw ≠ 0 then extractRaw env o
        (h ++ [Event.fopen n true, Event.out_read n, Event.x3f_new_from_file n true] ++ j.1) n
        else ([], true)) = r at hpf
      have hR2 : r.1 = [] ∨ (o.extract_raw ≠ 0 ∧ ∃ h2, r.1 = (extractRaw env o h2 n).1) := by
        by_cases hr : o.extract_raw = 0
        · left; rw [← hR]; simp [hr]
        · right
          refine ⟨hr, h ++ [Event.fopen n true, Event.out_read n,
            Event.x3f_new_from_file n true] ++ j.1, ?_⟩
          rw [← hR, if_pos hr]
      rw [hpf]
      split_ifs
      · exact ⟨j.1, [], [], by simp, hJ2, Or.inl rfl, Or.inl rfl⟩
      · exact ⟨j.1, r.1, [], by simp, hJ2, hR2, Or.inl rfl⟩
      · exact ⟨j.1, r.1, _, rfl, hJ2, hR2, Or.inr rfl⟩

theorem processFile_opened (env : Env) (o : Options) (h : Trace) (n : String) :
    (processFile env o h n).1.filterMap Event.opened = [n] := by
  rcases processFile_parts env o h n with ⟨hs, _⟩ | ⟨hs, _⟩ | ⟨J, R, C, hs, hJ, hR, hC⟩
  · rw [hs]; simp [List.filterMap_cons, Event.opened]
  · rw [hs]; simp [List.filterMap_cons, Event.opened]
  · have hJ2 : J.filterMap Event.opened = [] := by
      rcases hJ with hJ | ⟨_, h1, hJ⟩ <;> rw [hJ]
      · rfl
      · exact extractJpg_opened env h1 n
    have hR2 : R.filterMap Event.opened = [] := by
      rcases hR with hR | ⟨_, h2, hR⟩ <;> rw [hR]
      · rfl
      · exact (extractRaw_events env o h2 n).1
    have hC2 : C.filterMap Event.opened = [] := by
      rcases hC with hC | hC <;> rw [hC] <;> rfl
    rw [hs]
    simp [List.filterMap_append, List.filterMap_cons, Event.opened, hJ2, hR2, hC2]

/-- Every call of `x3f_dump_raw_data_as_histogram` in an iteration passes the
value of the variable `log_hist`. -/
theorem processFile_log_hist (env : Env) (o : Options) (h : Trace) (n name : String)
    (lh : Int) (ret : x3f_return_t)
    (hm : Event.x3f_dump_raw_data_as_histogram name lh ret ∈ (processFile env o h n).1) :
    lh = o.log_hist := by
  rcases processFile_parts env o h n with ⟨hs, _⟩ | ⟨hs, _⟩ | ⟨J, R, C, hs, hJ, hR, hC⟩
  · rw [hs] at hm; simp at hm
  · rw [hs] at hm; simp at hm
  · rw [hs] at hm
    simp only [List.mem_append] at hm
    rcases hm with ((hm | hm) | hm) | hm
    · simp at hm
    · rcases hJ with hJ | ⟨_, h1, hJ⟩
      · rw [hJ] at hm; simp at hm
      · rw [hJ] at hm
        have hd := extractJpg_rawDump env h1 n
        rw [List.filter_eq_nil_iff] at hd
        exact absurd rfl (hd _ hm)
    · rcases hR with hR | ⟨_, h2, hR⟩
      · rw [hR] at hm; simp at hm
      · rw [hR] at hm
        exact (extractRaw_events env o h2 n).2.2.1 name lh ret hm
    · rcases hC with hC | hC <;> rw [hC] at hm <;> simp at hm

/-- An iteration whose file opens and whose name has at most 1015 bytes ends
with defined behaviour. -/
theorem processFile_fits (env : Env) (o : Options) (h : Trace) (n : String)
    (hopen : env.fopen h n = true) (hfit : strlen n + 9 ≤ OUTFILENAME_SIZE) :
    (processFile env o h n).2 = true := by
  have j1 : ∀ h2, (extractJpg env h2 n).2 = true :=
    fun h2 => (extractJpg_fits env h2 n (by omega)).1
  have r1 : ∀ h2, (extractRaw env o h2 n).2 = true :=
    fun h2 => extractRaw_fits env o h2 n hfit
  by_cases hx : env.x3f_new_from_file (h ++ [Event.fopen n true, Event.out_read n]) n = false
  · simp [processFile, hopen, hx, clean_up]
  · by_cases hj : o.extract_jpg = 0 <;> by_cases hr : o.extract_raw = 0 <;>
      simp [processFile, hopen, hx, hj, hr, clean_up, j1, r1]

/-- With the file type `HISTOGRAM`, RAW dumping enabled, a file that opens,
reads and loads, and a name of at most 1019 bytes, the iteration ends with
defined behaviour and calls `x3f_dump_raw_data_as_histogram` once, on the
input name followed by `.csv`, with the value of `log_hist`. -/
theorem processFile_histogram_fits (env : Env) (o : Options) (h : Trace) (n : String)
    (hft : o.file_type = HISTOGRAM) (hraw : o.extract_raw ≠ 0)
    (hopen : ∀ h2, env.fopen h2 n = true)
    (hread : ∀ h2, env.x3f_new_from_file h2 n = true)
    (hload : ∀ h2, env.x3f_load_data h2 DirEntry.raw = X3F_OK)
    (hfit : strlen n + 5 ≤ OUTFILENAME_SIZE) :
    (processFile env o h n).2 = true ∧
      (processFile env o h n).1.filterMap Event.histogramCall =
        [(n ++ ".csv", o.log_hist)] := by
  have j1 : ∀ h2, (extractJpg env h2 n).2 = true :=
    fun h2 => (extractJpg_fits env h2 n hfit).1
  have j2 : ∀ h2, (extractJpg env h2 n).1.filterMap Event.histogramCall = [] :=
    fun h2 => extractJpg_histogramCall env h2 n
  have r1 : ∀ h2, (extractRaw env o h2 n).2 = true :=
    fun h2 => (extractRaw_histogram_fits env o h2 n hft hload hfit).1
  have r2 : ∀ h2, (extractRaw env o h2 n).1.filterMap Event.histogramCall =
      [(n ++ ".csv", o.log_hist)] :=
    fun h2 => (extractRaw_histogram_fits env o h2 n hft hload hfit).2
  by_cases hj : o.extract_jpg = 0 <;>
    simp [processFile, hopen, hread, hj, hraw, clean_up, j1, j2, r1, r2,
      List.filterMap_append, List.filterMap_cons, Event.histogramCall]

/-! ## The file loop and `main` as a whole -/

theorem mem_fileLoop (env : Env) (o : Options) (files : List String) :
    ∀ (h : Trace) (k : Nat) (e : Event), e ∈ (fileLoop env o h k files).1 →
      e ∈ h ∨ ∃ h2 n, n ∈ files ∧ e ∈ (processFile env o h2 n).1 := by
  induction files with
  | nil => intro h k e he; left; simpa [fileLoop] using he
  | cons n rest ih =>
    intro h k e he
    simp only [fileLoop] at he
    split_ifs at he with hd
    · rcases ih _ _ e he with hm | ⟨h2, m, hm, hp⟩
      · rcases List.mem_append.mp hm with hm | hm
        · exact Or.inl hm
        · exact Or.inr ⟨h, n, by simp, hm⟩
      · exact Or.inr ⟨h2, m, by simp [hm], hp⟩
    · rcases List.mem_append.mp he with hm | hm
      · exact Or.inl hm
      · exact Or.inr ⟨h, n, by simp, hm⟩

/-- Every event of a run of `main` is the call of `usage` or belongs to an
iteration of the file loop, run with the options the option loop left. -/
theorem mem_main (env : Env) (argv : List String) (e : Event)
    (he : e ∈ (main env argv).1) :
    e = Event.usage argv.head? ∨
      ∃ o rest h n, optionLoop env {} argv.tail = OptionLoopResult.files o rest ∧
        n ∈ rest ∧ e ∈ (processFile env o h n).1 := by
  unfold main at he
  split at he
  · left; simpa using he
  · rename_i o rest hopt
    split_ifs at he with h1 h2
    · left; simpa using he
    · left; simpa using he
    dsimp only at he
    split_ifs at he with h3 h4
    · rcases mem_fileLoop env o rest [] 0 e he with hm | ⟨h2, n, hn, hp⟩
      · simp at hm
      · exact Or.inr ⟨o, rest, h2, n, hopt, hn, hp⟩
    · rcases List.mem_append.mp he with hm | hm
      · rcases mem_fileLoop env o rest [] 0 e hm with hm | ⟨h2, n, hn, hp⟩
        · simp at hm
        · exact Or.inr ⟨o, rest, h2, n, hopt, hn, hp⟩
      · left; simpa using hm
    · rcases mem_fileLoop env o rest [] 0 e he with hm | ⟨h2, n, hn, hp⟩
      · simp at hm
      · exact Or.inr ⟨o, rest, h2, n, hopt, hn, hp⟩

/-- When every file opens and every name has at most 1015 bytes, the file
loop runs to its end with defined behaviour: it opens the files in argument
order, each once, and counts them. -/
theorem fileLoop_all_opened (env : Env) (o : Options) (files : List String)
    (hopen : ∀ h, ∀ n ∈ files, env.fopen h n = true)
    (hfit : ∀ n ∈ files, strlen n + 9 ≤ OUTFILENAME_SIZE) :
    ∀ (h : Trace) (k : Nat),
      (fileLoop env o h k files).2.2 = true ∧
      (fileLoop env o h k files).2.1 = k + files.length ∧
      (fileLoop env o h k files).1.filterMap Event.opened =
        h.filterMap Event.opened ++ files := by
  induction files with
  | nil => intro h k; simp [fileLoop]
  | cons n rest ih =>
    intro h k
    have hd : (processFile env o h n).2 = true :=
      processFile_fits env o h n (hopen h n (by simp)) (hfit n (by simp))
    simp only [fileLoop, hd, if_true]
    obtain ⟨h1, h2, h3⟩ := ih (fun h2 m hm => hopen h2 m (by simp [hm]))
      (fun m hm => hfit m (by simp [hm])) (h ++ (processFile env o h n).1) (k + 1)
    refine ⟨h1, ?_, ?_⟩
    · rw [h2]; simp; omega
    · rw [h3, List.filterMap_append, processFile_opened]; simp

/-- With the file type `HISTOGRAM` and RAW dumping enabled, when every file
opens, reads and loads and every name has at most 1019 bytes, the file loop
runs to its end and calls `x3f_dump_raw_data_as_histogram` once per file, in
argument order, on the input name followed by `.csv`. -/
theorem fileLoop_histogram (env : Env) (o : Options) (files : List String)
    (hft : o.file_type = HISTOGRAM) (hraw : o.extract_raw ≠ 0)
    (hopen : ∀ h, ∀ n ∈ files, env.fopen h n = true)
    (hread : ∀ h, ∀ n ∈ files, env.x3f_new_from_file h n = true)
    (hload : ∀ h, env.x3f_load_data h DirEntry.raw = X3F_OK)
    (hfit : ∀ n ∈ files, strlen n + 5 ≤ OUTFILENAME_SIZE) :
    ∀ (h : Trace) (k : Nat),
      (fileLoop env o h k files).2.2 = true ∧
      (fileLoop env o h k files).2.1 = k + files.length ∧
      (fileLoop env o h k files).1.filterMap Event.histogramCall =
        h.filterMap Event.histogramCall ++
          files.map (fun n => (n ++ ".csv", o.log_hist)) := by
  induction files with
  | nil => intro h k; simp [fileLoop]
  | cons n rest ih =>
    intro h k
    obtain ⟨hd, hc⟩ := processFile_histogram_fits env o h n hft hraw
      (fun h2 => hopen h2 n (by simp)) (fun h2 => hread h2 n (by simp)) hload
      (hfit n (by simp))
    simp only [fileLoop, hd, if_true]
    obtain ⟨h1, h2, h3⟩ := ih (fun h2 m hm => hopen h2 m (by simp [hm]))
      (fun h2 m hm => hread h2 m (by simp [hm]))
      (fun m hm => hfit m (by simp [hm])) (h ++ (processFile env o h n).1) (k + 1)
    refine ⟨h1, ?_, ?_⟩
    · rw [h2]; simp; omega
    · rw [h3, List.filterMap_append, hc]; simp

/-! ## The header constants -/

/-- C9: the version encoding `X3F_VERSION(MAJ, MIN) = (MAJ<<16) + MIN`, as a
32-bit value, gives `X3F_VERSION(2,0) = 0x00020000` and
`X3F_VERSION(2,1) = 0x00020001`, and for majors and minors in `0..65535` the
encoded values compare exactly as the pairs compare lexicographically; the
encoding is injective there, and a version is below 2.0 exactly when its
encoded value is below `X3F_VERSION_2_0`. -/
theorem X3F_VERSION_lexicographic (a b c d : Nat)
    (ha : a ≤ 65535) (hb : b ≤ 65535) (hc : c ≤ 65535) (hd : d ≤ 65535) :
    X3F_VERSION_2_0 = 0x00020000 ∧ X3F_VERSION_2_1 = 0x00020001 ∧
    (X3F_VERSION a b < X3F_VERSION c d ↔ (a < c ∨ (a = c ∧ b < d))) ∧
    (X3F_VERSION a b = X3F_VERSION c d → a = c ∧ b = d) ∧
    ((a < 2 ∨ (a = 2 ∧ b < 0)) ↔ X3F_VERSION a b < X3F_VERSION_2_0) := by
  have e1 : X3F_VERSION a b = a * 65536 + b := by
    simp only [X3F_VERSION, uint32_t, Nat.shiftLeft_eq]
    omega
  have e2 : X3F_VERSION c d = c * 65536 + d := by
    simp only [X3F_VERSION, uint32_t, Nat.shiftLeft_eq]
    omega
  have e3 : X3F_VERSION_2_0 = 131072 := by decide
  have e4 : X3F_VERSION_2_1 = 131073 := by decide
  rw [e1, e2, e3, e4]
  refine ⟨rfl, rfl, ?_, ?_, ?_⟩ <;> omega

/-- C9, at the versions 2.1 and 2.3. -/
theorem X3F_VERSION_lexicographic_witness :
    X3F_VERSION 2 1 < X3F_VERSION 2 3 ↔ (2 < 2 ∨ (2 = 2 ∧ 1 < 3)) :=
  (X3F_VERSION_lexicographic 2 1 2 3 (by decide) (by decide) (by decide) (by decide)).2.2.1

/-- C10: the constant `X3F_IMAG` is not the little-endian reading of the tag
`IMAG` (that reading is `0x47414d49`); its value `0x46414d49` reads `IMAF`.
Each of the other twelve identifier constants is the reading of its tag, and
the identifiers `FOVb`, `SECd`, `SECp`, `SECi`, `SECc` are pairwise
distinct. -/
theorem X3F_IMAG_is_not_tag_IMAG :
    X3F_IMAG ≠ tag32 "IMAG" ∧ tag32 "IMAG" = 0x47414d49 ∧ X3F_IMAG = tag32 "IMAF" ∧
    X3F_FOVb = tag32 "FOVb" ∧ X3F_SECd = tag32 "SECd" ∧ X3F_PROP = tag32 "PROP" ∧
    X3F_SECp = tag32 "SECp" ∧ X3F_IMA2 = tag32 "IMA2" ∧ X3F_SECi = tag32 "SECi" ∧
    X3F_CAMF = tag32 "CAMF" ∧ X3F_SECc = tag32 "SECc" ∧ X3F_CMbP = tag32 "CMbP" ∧
    X3F_CMbT = tag32 "CMbT" ∧ X3F_CMbM = tag32 "CMbM" ∧ X3F_CMb = tag32z "CMb" ∧
    [X3F_FOVb, X3F_SECd, X3F_SECp, X3F_SECi, X3F_SECc].Nodup := by
  decide

/-- C5, as stated, fails: it is not the case that every image dispatch
constant of the header is the `type_format` of one of the six combinations
1-6, 2-3, 2-11, 2-18, 3-6, 3-0x1e and that each of the six has a constant. -/
theorem image_constants_not_the_six :
    ¬ ((∀ c ∈ X3F_IMAGE_constants,
          ∃ p ∈ definedCombinations, c = type_format p.1 p.2) ∧
       (∀ p ∈ definedCombinations, type_format p.1 p.2 ∈ X3F_IMAGE_constants)) := by
  decide

/-- C5, amended: the image dispatch constants of the header are the
`type_format` values of the seven combinations 1-0x1e, 3-5, 3-0x1e, 3-6, 2-3,
2-11, 2-18.  Of the six combinations of the specification all but 1-6 have a
constant, and all constants but `X3F_IMAGE_RAW_TRUE_SD1` (1-0x1e) and
`X3F_IMAGE_RAW_HUFFMAN_X530` (3-5) belong to one of the six.  On all these
combinations `type<<16 + format` and `type<<16 | format` agree. -/
theorem image_constants_are_the_seven :
    X3F_IMAGE_constants = headerCombinations.map (fun p => type_format p.1 p.2) ∧
    (∀ p ∈ definedCombinations,
      type_format p.1 p.2 ∈ X3F_IMAGE_constants ↔ p ≠ (1, 6)) ∧
    (∀ c ∈ X3F_IMAGE_constants,
      (∃ p ∈ definedCombinations, c = type_format p.1 p.2) ↔
        (c ≠ X3F_IMAGE_RAW_TRUE_SD1 ∧ c ≠ X3F_IMAGE_RAW_HUFFMAN_X530)) ∧
    (∀ p ∈ headerCombinations ++ definedCombinations,
      type_format p.1 p.2 = type_format_or p.1 p.2) := by
  decide

/-! ## The command line of `x3f_extract` -/

theorem fileType_eq_RAW (k : Token) : k.fileType = RAW ↔ k = Token.raw := by
  cases k <;> simp [Token.fileType]

theorem fileType_eq_HISTOGRAM (k : Token) :
    k.fileType = HISTOGRAM ↔ (k = Token.histogram ∨ k = Token.loghist) := by
  cases k <;> simp [Token.fileType]

theorem fileType_not_scaled (k : Token) :
    (k.fileType ≠ TIFF ∧ k.fileType ≠ PPMP3 ∧ k.fileType ≠ PPMP6) ↔
      (k = Token.raw ∨ k = Token.histogram ∨ k = Token.loghist) := by
  cases k <;> simp [Token.fileType]

/-- C1: for every argument vector, when no file name remains after the
options, or when the first argument after the recognised options starts with
a dash (an unrecognised option, or `-gamma`, `-min`, `-max` as the last
argument), `main` ends through `usage` with exit status 1, and the call of
`usage` is the only event of the run: no file is opened and no dump
operation is called or reported. -/
theorem main_usage_exit (env : Env) (argv : List String)
    (h : afterOptions argv.tail = [] ∨ offendingOption argv.tail = true) :
    main env argv = ([Event.usage argv.head?], Outcome.exit 1) := by
  rcases h with h | h
  · exact main_usage_of_no_file env argv h
  · exact main_usage_of_offending env argv h

/-- C1, at `x3f_extract -tiff -gamma`: `-gamma` is the last argument. -/
theorem main_usage_exit_witness :
    offendingOption ["-tiff", "-gamma"] = true ∧
    main demoEnv ["x3f_extract", "-tiff", "-gamma"] =
      ([Event.usage (some "x3f_extract")], Outcome.exit 1) :=
  ⟨by decide, main_usage_exit demoEnv ["x3f_extract", "-tiff", "-gamma"]
    (Or.inr (by decide))⟩


/-- A run with accepted options enters the file loop with the variables the
options left, on the arguments after the options. -/
theorem main_of_accepted (env : Env) (argv : List String)
    (hacc : optionsAccepted env argv.tail) :
    ∃ o, optionLoop env {} argv.tail =
        OptionLoopResult.files o (afterOptions argv.tail) ∧
      main env argv =
        (if (fileLoop env o [] 0 (afterOptions argv.tail)).2.2 = false then
          ((fileLoop env o [] 0 (afterOptions argv.tail)).1, Outcome.undefined)
        else if (fileLoop env o [] 0 (afterOptions argv.tail)).2.1 = 0 then
          ((fileLoop env o [] 0 (afterOptions argv.tail)).1 ++ [Event.usage argv.head?],
            Outcome.exit 1)
        else ((fileLoop env o [] 0 (afterOptions argv.tail)).1, Outcome.exit 0)) := by
  obtain ⟨hoff, hmm, hg⟩ := hacc
  have hopt := optionLoop_eq_tokens env argv.tail {}
  rw [if_neg (by simp [hoff])] at hopt
  refine ⟨_, hopt, ?_⟩
  obtain ⟨_, _, _, _, hft, _, hgam, hmin, hmax⟩ :=
    optionLoop_files env argv.tail _ _ hopt
  unfold main
  rw [hopt]
  simp only
  rw [if_neg (by rw [hgam, hmin, hmax]; exact hmm),
    if_neg (by rw [hgam, hft, fileType_not_scaled]; exact hg)]

/-- C2: the run `x3f_extract missing.x3f a.x3f`, where `missing.x3f` cannot be
opened, reports the failure, reaches `clean_up` and calls `fclose` on the null
stream: the behaviour is undefined from there, `a.x3f` is never opened and no
exit status 0 is reached. -/
theorem main_open_failure_cuts_batch :
    main demoEnv ["x3f_extract", "missing.x3f", "a.x3f"] =
      ([Event.fopen "missing.x3f" false, Event.err_open "missing.x3f",
        Event.x3f_delete false, Event.fclose false], Outcome.undefined) := by
  decide

/-- With accepted options, at least one file name, every file opening and
every name of at most 1015 bytes, the run attempts every file once, in
argument order, and ends with exit status 0, whatever `x3f_new_from_file`,
the loads and the dumps return. -/
theorem main_attempts_all_opened (env : Env) (argv : List String)
    (hacc : optionsAccepted env argv.tail)
    (hne : afterOptions argv.tail ≠ [])
    (hopen : ∀ h, ∀ n ∈ afterOptions argv.tail, env.fopen h n = true)
    (hfit : ∀ n ∈ afterOptions argv.tail, strlen n + 9 ≤ OUTFILENAME_SIZE) :
    (main env argv).2 = Outcome.exit 0 ∧
      (main env argv).1.filterMap Event.opened = afterOptions argv.tail := by
  obtain ⟨o, _, hm⟩ := main_of_accepted env argv hacc
  obtain ⟨h1, h2, h3⟩ := fileLoop_all_opened env o _ hopen hfit [] 0
  have hlen : (afterOptions argv.tail).length ≠ 0 := by
    intro hl
    exact hne (List.length_eq_zero.mp hl)
  rw [hm, if_neg (by simp [h1]), if_neg (by rw [h2]; omega)]
  exact ⟨rfl, by simpa using h3⟩

/-- C3, as stated, fails: `-gamma 2.2` with `-jpg` (the output is the JPEG
thumbnail), `-gamma 0` with `-raw`, and `-min -1` without any gamma are all
accepted; the file is processed and the run ends with exit status 0. -/
theorem gamma_min_max_accepted :
    main demoEnv ["x3f_extract", "-jpg", "-gamma", "2.2", "a.x3f"] =
      ([Event.fopen "a.x3f" true, Event.out_read "a.x3f",
        Event.x3f_new_from_file "a.x3f" true,
        Event.x3f_load_data DirEntry.thumb_jpeg X3F_OK,
        Event.out_dump_jpeg "a.x3f.jpg", Event.x3f_dump_jpeg "a.x3f.jpg" X3F_OK,
        Event.x3f_delete true, Event.fclose true], Outcome.exit 0) ∧
    main demoEnv ["x3f_extract", "-raw", "-gamma", "0", "a.x3f"] =
      ([Event.fopen "a.x3f" true, Event.out_read "a.x3f",
        Event.x3f_new_from_file "a.x3f" true, Event.out_load_raw "a.x3f",
        Event.x3f_load_image_block DirEntry.raw X3F_OK,
        Event.out_dump_raw_block "a.x3f.raw", Event.x3f_dump_raw_data "a.x3f.raw" X3F_OK,
        Event.x3f_delete true, Event.fclose true], Outcome.exit 0) ∧
    main demoEnv ["x3f_extract", "-min", "-1", "a.x3f"] =
      ([Event.fopen "a.x3f" true, Event.out_read "a.x3f",
        Event.x3f_new_from_file "a.x3f" true, Event.out_load_raw "a.x3f",
        Event.x3f_load_data DirEntry.raw X3F_OK,
        Event.out_dump_tiff "a.x3f.tif",
        Event.x3f_dump_raw_data_as_tiff "a.x3f.tif" Double.minusOne (-1) (-1) X3F_OK,
        Event.x3f_delete true, Event.fclose true], Outcome.exit 0) := by
  decide

/-- C3, amended: `main` ends with a usage violation (exit status 1) before
any file is processed whenever the gamma in effect is greater than zero and
the RAW dump kind in effect is `-raw`, `-histogram` or `-loghist`, and
whenever the min or the max in effect differs from -1 and the gamma in effect
is at most zero. -/
theorem main_usage_gamma_min_max (env : Env) (argv : List String)
    (h : ((gammaInEffect env argv.tail).gt_zero = true ∧
          (rawKindInEffect argv.tail = Token.raw ∨
            rawKindInEffect argv.tail = Token.histogram ∨
            rawKindInEffect argv.tail = Token.loghist)) ∨
        ((minInEffect env argv.tail ≠ -1 ∨ maxInEffect env argv.tail ≠ -1) ∧
          (gammaInEffect env argv.tail).le_zero = true)) :
    main env argv = ([Event.usage argv.head?], Outcome.exit 1) := by
  cases hres : optionLoop env {} argv.tail with
  | usage => simp [main, hres]
  | files o rest =>
    obtain ⟨_, _, _, _, hft, _, hg, hmin, hmax⟩ := optionLoop_files env argv.tail rest o hres
    unfold main
    rw [hres]
    simp only
    rcases h with ⟨h1, h2⟩ | ⟨h1, h2⟩
    · have hns := (fileType_not_scaled (rawKindInEffect argv.tail)).mpr h2
      rw [← hft] at hns
      rw [← hg] at h1
      by_cases c1 : (o.min ≠ -1 ∨ o.max ≠ -1) ∧ o.gamma.le_zero = true
      · rw [if_pos c1]
      · rw [if_neg c1, if_pos ⟨h1, hns⟩]
    · rw [← hg] at h2
      rw [← hmin, ← hmax] at h1
      rw [if_pos ⟨h1, h2⟩]

/-- C3 amended, at `x3f_extract -raw -gamma 2.2 a.x3f`. -/
theorem main_usage_gamma_min_max_witness :
    ((gammaInEffect demoEnv ["-raw", "-gamma", "2.2", "a.x3f"]).gt_zero = true ∧
      rawKindInEffect ["-raw", "-gamma", "2.2", "a.x3f"] = Token.raw) ∧
    main demoEnv ["x3f_extract", "-raw", "-gamma", "2.2", "a.x3f"] =
      ([Event.usage (some "x3f_extract")], Outcome.exit 1) :=
  ⟨by decide, main_usage_gamma_min_max demoEnv
    ["x3f_extract", "-raw", "-gamma", "2.2", "a.x3f"]
    (Or.inl ⟨by decide, Or.inl (by decide)⟩)⟩

/-- C4: the run `x3f_extract -ppm a.x3f`, in which the RAW section loads,
writing the PPM file fails and writing the histogram succeeds.  After
`x3f_dump_raw_data_as_ppm` on `a.x3f.ppm` control falls into
`case HISTOGRAM`: a second dump operation, `x3f_dump_raw_data_as_histogram`,
is called on `a.x3f.ppm.csv`, and since it returns `X3F_OK` the line
`Could not dump RAW` is not printed although the PPM dump failed. -/
theorem main_ppm_falls_into_histogram :
    main demoEnv ["x3f_extract", "-ppm", "a.x3f"] =
      ([Event.fopen "a.x3f" true, Event.out_read "a.x3f",
        Event.x3f_new_from_file "a.x3f" true, Event.out_load_raw "a.x3f",
        Event.x3f_load_data DirEntry.raw X3F_OK,
        Event.out_dump_ppm "a.x3f.ppm",
        Event.x3f_dump_raw_data_as_ppm "a.x3f.ppm" Double.minusOne (-1) (-1) 1
          X3F_OUTFILE_ERROR,
        Event.out_dump_csv "a.x3f.ppm.csv",
        Event.x3f_dump_raw_data_as_histogram "a.x3f.ppm.csv" 0 X3F_OK,
        Event.x3f_delete true, Event.fclose true], Outcome.exit 0) := by
  decide

/-! ## What holds in the defined part of every run -/

theorem extractJpg_image_block (env : Env) (h : Trace) (n : String) (DE : DirEntry)
    (ret : x3f_return_t) : Event.x3f_load_image_block DE ret ∉ (extractJpg env h n).1 := by
  simp only [extractJpg]
  split <;> (try split_ifs) <;> simp

theorem not_mem_of_filter_nil (p : Event → Bool) (l : List Event) (e : Event)
    (hl : l.filter p = []) (hp : p e = true) : e ∉ l := by
  intro hm
  have : e ∈ l.filter p := List.mem_filter.mpr ⟨hm, hp⟩
  rw [hl] at this
  simp at this

/-- In an iteration the RAW section is loaded through `x3f_load_image_block`
only when the file type is `RAW`, and through `x3f_load_data` only when it is
not. -/
theorem processFile_load_kind (env : Env) (o : Options) (h : Trace) (n : String) :
    (o.file_type = RAW →
      ∀ ret, Event.x3f_load_data DirEntry.raw ret ∉ (processFile env o h n).1) ∧
    (o.file_type ≠ RAW →
      ∀ DE ret, Event.x3f_load_image_block DE ret ∉ (processFile env o h n).1) := by
  rcases processFile_parts env o h n with ⟨hs, _⟩ | ⟨hs, _⟩ | ⟨J, R, C, hs, hJ, hR, hC⟩
  · rw [hs]; simp
  · rw [hs]; simp
  · have hJ1 : ∀ ret, Event.x3f_load_data DirEntry.raw ret ∉ J := by
      intro ret
      rcases hJ with hJ | ⟨_, h1, hJ⟩ <;> rw [hJ]
      · simp
      · exact not_mem_of_filter_nil _ _ _ (extractJpg_rawLoad env h1 n) rfl
    have hJ2 : ∀ DE ret, Event.x3f_load_image_block DE ret ∉ J := by
      intro DE ret
      rcases hJ with hJ | ⟨_, h1, hJ⟩ <;> rw [hJ]
      · simp
      · exact extractJpg_image_block env h1 n DE ret
    have hC1 : ∀ e ∈ C, e = Event.x3f_delete true ∨ e = Event.fclose true := by
      intro e he
      rcases hC with hC | hC <;> rw [hC] at he <;> simp at he
      exact he
    constructor
    · intro hft ret hm
      rw [hs] at hm
      simp only [List.mem_append] at hm
      rcases hm with ((hm | hm) | hm) | hm
      · simp at hm
      · exact hJ1 ret hm
      · rcases hR with hR | ⟨_, h2, hR⟩ <;> rw [hR] at hm
        · simp at hm
        · exact (extractRaw_events env o h2 n).2.2.2.2 ret hm hft
      · rcases hC1 _ hm with hc | hc <;> simp at hc
    · intro hft DE ret hm
      rw [hs] at hm
      simp only [List.mem_append] at hm
      rcases hm with ((hm | hm) | hm) | hm
      · simp at hm
      · exact hJ2 DE ret hm
      · rcases hR with hR | ⟨_, h2, hR⟩ <;> rw [hR] at hm
        · simp at hm
        · exact hft ((extractRaw_events env o h2 n).2.2.2.1 DE ret hm).2
      · rcases hC1 _ hm with hc | hc <;> simp at hc

/-- In the defined part of every run: with `-raw` in effect `x3f_load_data` is
never called on the RAW section, and with another RAW dump kind in effect
`x3f_load_image_block` is never called. -/
theorem main_load_kind (env : Env) (argv : List String) :
    (rawKindInEffect argv.tail = Token.raw →
      ∀ ret, Event.x3f_load_data DirEntry.raw ret ∉ (main env argv).1) ∧
    (rawKindInEffect argv.tail ≠ Token.raw →
      ∀ DE ret, Event.x3f_load_image_block DE ret ∉ (main env argv).1) := by
  refine ⟨fun hk ret hm => ?_, fun hk DE ret hm => ?_⟩
  · rcases mem_main env argv _ hm with hu | ⟨o, rest, h, n, hopt, _, hp⟩
    · simp at hu
    · have hft := (optionLoop_files env argv.tail rest o hopt).2.2.2.2.1
      have : o.file_type = RAW := by rw [hft]; exact (fileType_eq_RAW _).mpr hk
      exact (processFile_load_kind env o h n).1 this ret hp
  · rcases mem_main env argv _ hm with hu | ⟨o, rest, h, n, hopt, _, hp⟩
    · simp at hu
    · have hft := (optionLoop_files env argv.tail rest o hopt).2.2.2.2.1
      have : o.file_type ≠ RAW := by
        rw [hft]; exact fun hc => hk ((fileType_eq_RAW _).mp hc)
      exact (processFile_load_kind env o h n).2 this DE ret hp

/-- With RAW dumping disabled, an iteration neither loads the RAW section nor
calls a RAW dump operation. -/
theorem processFile_no_raw (env : Env) (o : Options) (h : Trace) (n : String)
    (hraw : o.extract_raw = 0) :
    (processFile env o h n).1.filter Event.isRawLoad = [] ∧
      (processFile env o h n).1.filter Event.isRawDump = [] := by
  rcases processFile_parts env o h n with ⟨hs, _⟩ | ⟨hs, _⟩ | ⟨J, R, C, hs, hJ, hR, hC⟩
  · rw [hs]; simp [List.filter_cons, Event.isRawLoad, Event.isRawDump]
  · rw [hs]; simp [List.filter_cons, Event.isRawLoad, Event.isRawDump]
  · have hR0 : R = [] := by
      rcases hR with hR | ⟨hne, _⟩
      · exact hR
      · exact absurd hraw hne
    have hJ1 : J.filter Event.isRawLoad = [] ∧ J.filter Event.isRawDump = [] := by
      rcases hJ with hJ | ⟨_, h1, hJ⟩ <;> rw [hJ]
      · exact ⟨rfl, rfl⟩
      · exact ⟨extractJpg_rawLoad env h1 n, extractJpg_rawDump env h1 n⟩
    have hC1 : C.filter Event.isRawLoad = [] ∧ C.filter Event.isRawDump = [] := by
      rcases hC with hC | hC <;> rw [hC] <;> exact ⟨rfl, rfl⟩
    rw [hs, hR0]
    simp [List.filter_append, List.filter_cons, Event.isRawLoad, Event.isRawDump, hJ1.1,
      hJ1.2, hC1.1, hC1.2]

/-- With JPEG dumping enabled, a file that opens and reads, and a name of at
most 1015 bytes, the iteration ends with defined behaviour and calls
`x3f_dump_jpeg` once, on the input name followed by `.jpg`. -/
theorem processFile_jpeg_fits (env : Env) (o : Options) (h : Trace) (n : String)
    (hjpg : o.extract_jpg ≠ 0)
    (hopen : ∀ h2, env.fopen h2 n = true)
    (hread : ∀ h2, env.x3f_new_from_file h2 n = true)
    (hfit : strlen n + 9 ≤ OUTFILENAME_SIZE) :
    (processFile env o h n).2 = true ∧
      (processFile env o h n).1.filterMap Event.jpegCall = [n ++ ".jpg"] := by
  have j1 : ∀ h2, (extractJpg env h2 n).2 = true :=
    fun h2 => (extractJpg_fits env h2 n (by omega)).1
  have j2 : ∀ h2, (extractJpg env h2 n).1.filterMap Event.jpegCall = [n ++ ".jpg"] :=
    fun h2 => (extractJpg_fits env h2 n (by omega)).2
  have r1 : ∀ h2, (extractRaw env o h2 n).2 = true :=
    fun h2 => extractRaw_fits env o h2 n hfit
  have r2 : ∀ h2, (extractRaw env o h2 n).1.filterMap Event.jpegCall = [] := by
    intro h2
    rw [List.filterMap_eq_nil_iff]
    intro e he
    have hd := (extractRaw_events env o h2 n).2.1
    rw [List.filter_eq_nil_iff] at hd
    have := hd e he
    cases e <;> simp [Event.jpegCall, Event.isJpegDump] at this ⊢
  by_cases hr : o.extract_raw = 0 <;>
    simp [processFile, hopen, hread, hjpg, hr, clean_up, j1, j2, r1, r2,
      List.filterMap_append, List.filterMap_cons, Event.jpegCall]

/-! ## Long file names -/

set_option maxRecDepth 100000 in
theorem strlen_longName : strlen longName = 1020 := by
  decide

set_option maxRecDepth 100000 in
/-- C7: the run `x3f_extract -jpg <name>` on a readable file whose name has
1020 bytes.  JPEG dumping is enabled and the file is read, but appending
`.jpg` overflows `outfilename`: the behaviour is undefined before
`x3f_dump_jpeg` is called, and the defined part of the run contains no JPEG
dump. -/
theorem main_jpg_long_name_overflows :
    main demoEnv ["x3f_extract", "-jpg", longName] =
      ([Event.fopen longName true, Event.out_read longName,
        Event.x3f_new_from_file longName true,
        Event.x3f_load_data DirEntry.thumb_jpeg X3F_OK], Outcome.undefined) := by
  decide

theorem loghist_mem_of_inEffect (args : List String)
    (h : rawKindInEffect args = Token.loghist) : Token.loghist ∈ optionTokens args := by
  unfold rawKindInEffect at h
  cases hl : ((optionTokens args).filter Token.isRawKind).getLast? with
  | none => rw [hl] at h; simp at h
  | some k =>
    rw [hl] at h
    simp only [Option.getD_some] at h
    subst h
    exact (List.mem_filter.mp (List.mem_of_getLast?_eq_some hl)).1

/-- C8, as stated, fails: in the run `x3f_extract -loghist -histogram a.x3f`
the dump kind in effect is `-histogram`, and
`x3f_dump_raw_data_as_histogram` is called with `log_hist = 1`. -/
theorem histogram_after_loghist_is_log :
    rawKindInEffect ["-loghist", "-histogram", "a.x3f"] = Token.histogram ∧
    main demoEnv ["x3f_extract", "-loghist", "-histogram", "a.x3f"] =
      ([Event.fopen "a.x3f" true, Event.out_read "a.x3f",
        Event.x3f_new_from_file "a.x3f" true, Event.out_load_raw "a.x3f",
        Event.x3f_load_data DirEntry.raw X3F_OK,
        Event.out_dump_csv "a.x3f.csv",
        Event.x3f_dump_raw_data_as_histogram "a.x3f.csv" 1 X3F_OK,
        Event.x3f_delete true, Event.fclose true], Outcome.exit 0) := by
  decide

/-- C8, amended: when the dump kind in effect is `-loghist`, every call of
`x3f_dump_raw_data_as_histogram` in the defined part of a run has
`log_hist = 1`; when it is `-histogram`, every such call has `log_hist = 1` if
a `-loghist` flag occurs among the options (it then precedes the last
`-histogram`) and `log_hist = 0` if none occurs.  With either kind, when no
`-jpg` switches RAW dumping off, the options are accepted, every file opens,
reads and loads, and every file name has at most 1019 bytes (so that
`outfilename` holds the name, a suffix and the terminating zero), the run
calls `x3f_dump_raw_data_as_histogram` once per file, in argument order, on
the input name followed by `.csv`, with that `log_hist`. -/
theorem histogram_log_flag (env : Env) (argv : List String) :
    (rawKindInEffect argv.tail = Token.loghist →
      ∀ out lh ret, Event.x3f_dump_raw_data_as_histogram out lh ret ∈
        (main env argv).1 → lh = 1) ∧
    (rawKindInEffect argv.tail = Token.histogram →
      ∀ out lh ret, Event.x3f_dump_raw_data_as_histogram out lh ret ∈
        (main env argv).1 →
        lh = if Token.loghist ∈ optionTokens argv.tail then 1 else 0) ∧
    (rawKindInEffect argv.tail = Token.histogram ∨
        rawKindInEffect argv.tail = Token.loghist →
      (∀ pre post, optionTokens argv.tail = pre ++ Token.jpg :: post →
        ∃ k ∈ post, Token.isRawKind k = true) →
      optionsAccepted env argv.tail →
      (∀ h, ∀ n ∈ afterOptions argv.tail, env.fopen h n = true) →
      (∀ h, ∀ n ∈ afterOptions argv.tail, env.x3f_new_from_file h n = true) →
      (∀ h, env.x3f_load_data h DirEntry.raw = X3F_OK) →
      (∀ n ∈ afterOptions argv.tail, strlen n + 5 ≤ OUTFILENAME_SIZE) →
      (main env argv).1.filterMap Event.histogramCall =
        (afterOptions argv.tail).map (fun n =>
          (n ++ ".csv", if Token.loghist ∈ optionTokens argv.tail then 1 else 0))) := by
  have key : ∀ out lh ret, Event.x3f_dump_raw_data_as_histogram out lh ret ∈
      (main env argv).1 →
      lh = if Token.loghist ∈ optionTokens argv.tail then 1 else 0 := by
    intro out lh ret hm
    rcases mem_main env argv _ hm with hu | ⟨o, rest, h, n, hopt, _, hp⟩
    · simp at hu
    · have hlh := (optionLoop_files env argv.tail rest o hopt).2.2.2.2.2.1
      rw [← hlh]
      exact processFile_log_hist env o h n out lh ret hp
  refine ⟨fun hk out lh ret hm => ?_, fun _ => key, ?_⟩
  · rw [key out lh ret hm, if_pos (loghist_mem_of_inEffect _ hk)]
  · intro hk hon hacc hopen hread hload hfit
    obtain ⟨o, hopt, hm⟩ := main_of_accepted env argv hacc
    obtain ⟨_, _, _, hr, hft, hlh, _⟩ := optionLoop_files env argv.tail _ o hopt
    have hft2 : o.file_type = HISTOGRAM := by
      rw [hft]; exact (fileType_eq_HISTOGRAM _).mpr hk
    have hraw : o.extract_raw ≠ 0 := by
      intro h0
      obtain ⟨pre, post, hsplit, hnone⟩ := hr.mp h0
      obtain ⟨k, hk1, hk2⟩ := hon pre post hsplit
      rw [hnone k hk1] at hk2
      exact Bool.false_ne_true hk2
    obtain ⟨h1, h2, h3⟩ := fileLoop_histogram env o _ hft2 hraw hopen hread hload hfit [] 0
    simp only [← hlh]
    rw [hm, if_neg (by simp [h1])]
    by_cases hz : (fileLoop env o [] 0 (afterOptions argv.tail)).2.1 = 0
    · rw [if_pos hz, List.filterMap_append, h3]
      simp [List.filterMap_cons, Event.histogramCall]
    · rw [if_neg hz, h3]
      simp

/-- C8 amended, at `x3f_extract -loghist a.x3f b.x3f`: the histogram dump is
called on `a.x3f.csv`, then on `b.x3f.csv`, both times with `log_hist = 1`. -/
theorem histogram_log_flag_witness :
    rawKindInEffect ["-loghist", "a.x3f", "b.x3f"] = Token.loghist ∧
    optionsAccepted demoEnv ["-loghist", "a.x3f", "b.x3f"] ∧
    (main demoEnv ["x3f_extract", "-loghist", "a.x3f", "b.x3f"]).1.filterMap
        Event.histogramCall = [("a.x3f.csv", 1), ("b.x3f.csv", 1)] :=
  ⟨by decide, by decide,
    (histogram_log_flag demoEnv ["x3f_extract", "-loghist", "a.x3f", "b.x3f"]).2.2
      (Or.inr (by decide))
      (fun pre post hsplit => absurd (hsplit ▸ List.mem_append_right pre
        (List.mem_cons_self Token.jpg post)) (by decide))
      (by decide)
      (fun _ n hn => by
        have hn2 : n = "a.x3f" ∨ n = "b.x3f" := by
          simpa [afterOptions, flagToken, valueToken] using hn
        rcases hn2 with rfl | rfl <;> simp [demoEnv])
      (fun _ _ _ => rfl)
      (fun _ => rfl)
      (fun n hn => by
        have hn2 : n = "a.x3f" ∨ n = "b.x3f" := by
          simpa [afterOptions, flagToken, valueToken] using hn
        rcases hn2 with rfl | rfl <;> decide)⟩

end X3F
